import Mathlib

/-!
# csnake: the snake simulation of `main.c`

A shallow embedding of the simulation core of `main.c` (body chain, movement,
growth, collision checks, pickup placement, key handling and the fixed-step
frame loop), followed by theorems about it.

Modelling conventions.

* The doubly linked chain `head -> next -> ... -> tail` is the list `parts`,
  head first.  Following `prev` from the tail walks the same list backwards.
  A `NULL` dereference (empty chain, or `head->next` of a one-part chain) makes
  the embedded function return `none`.
* `int32_t` values are integers.  Signed arithmetic is embedded without
  wrap-around (signed overflow has no defined result in C); the one mixed
  `int32_t -= uint32_t` computation of the frame loop is embedded with its
  modulo `2^32` result.  `advanceSnakePosition32` is `advanceSnakePosition`
  with every `int32_t` store reduced to 32 bits in two's complement, as the
  compiled program computes it; the two return the same snake whenever the
  stored values fit `int32_t` (`advanceSnakePosition32_eq_of_fits`).
* `rand` is the sequence of results of the C library generator: `rand k` is the
  result of call number `k`; `randCalls` counts the calls made so far.
* Rendering and window handling are left out.
-/

namespace CSnake

/-! ## Constants -/

def WINDOW_WIDTH : Int := 700
def WINDOW_HEIGHT : Int := 700
def TILE_SIZE : Int := 20
def SNAKE_INITIAL_FRICTION : Int := 250
def SNAKE_FRICTION_REDUCTION_PER_PART : Int := 4
def SNAKE_MIN_FRICTION : Int := 50

/-! ## Data model -/

inductive Direction where
  | left
  | right
  | top
  | bottom
deriving DecidableEq

inductive GameState where
  | paused
  | running
  | lost
  | quitRequested
deriving DecidableEq

structure Pickup where
  x : Int
  y : Int
deriving DecidableEq

/-- One node of the chain; the `next` and `prev` links are the list order. -/
structure SnakePart where
  x : Int
  y : Int
deriving DecidableEq

structure Snake where
  parts : List SnakePart
  direction : Direction
  nextDirection : Direction
  length : Int
  friction : Int
  pickupsPending : Int
deriving DecidableEq

def createSnakePart (x y : Int) : SnakePart :=
  { x := x, y := y }

/-! ## Pickup placement -/

/-- The body of `updatePickupLocation`, given the results `r1`, `r2` of its two
`rand()` calls (in call order).  The arithmetic is `uint32_t`. -/
def updatePickupLocation (r1 r2 : Nat) (_pickup : Pickup) : Pickup :=
  let minX : Nat := 1
  let minY : Nat := 1
  let maxX : Nat := ((WINDOW_WIDTH - TILE_SIZE * 2) / TILE_SIZE).toNat
  let maxY : Nat := ((WINDOW_HEIGHT - TILE_SIZE * 2) / TILE_SIZE).toNat
  { x := ((r1 % (maxX + 1 - minX) + minX : Nat) : Int)
    y := ((r2 % (maxY + 1 - minY) + minY : Nat) : Int) }

/-! ## Body operations -/

def addSnakePart (snake : Snake) (part : SnakePart) : Snake :=
  let snake := { snake with length := snake.length + 1 }
  match snake.parts with
  | [] => { snake with parts := [part] }
  | _ :: _ => { snake with parts := snake.parts ++ [part] }

/-- The loop `while (currentPart != NULL)` of `advanceSnakePosition`:
`shiftParts parts i` runs it with `currentPart` at index `i`.  The part at
index `i + 1` receives the cell of its predecessor, then the walk continues at
the predecessor; at the head (`prevPart == NULL`) nothing is copied. -/
def shiftParts (parts : List SnakePart) : Nat → List SnakePart
  | 0 => parts
  | i + 1 =>
    match parts[i]? with
    | some prevPart => shiftParts (parts.set (i + 1) prevPart) i
    | none => parts

def advanceSnakePosition (snake : Snake) : Option Snake :=
  match snake.parts.getLast? with
  | none => none
  | some tail =>
    let lastX := tail.x
    let lastY := tail.y
    let snake := { snake with parts := shiftParts snake.parts (snake.parts.length - 1) }
    let snake :=
      if snake.pickupsPending > 0 then
        let snake := addSnakePart snake (createSnakePart lastX lastY)
        let snake := { snake with pickupsPending := snake.pickupsPending - 1 }
        let snake := { snake with length := snake.length + 1 }
        let snake := { snake with friction := snake.friction - SNAKE_FRICTION_REDUCTION_PER_PART }
        if snake.friction < SNAKE_MIN_FRICTION then
          { snake with friction := SNAKE_MIN_FRICTION }
        else snake
      else snake
    match snake.parts with
    | [] => none
    | head :: rest =>
      let head :=
        match snake.nextDirection with
        | Direction.left => { head with x := head.x - 1 }
        | Direction.right => { head with x := head.x + 1 }
        | Direction.top => { head with y := head.y - 1 }
        | Direction.bottom => { head with y := head.y + 1 }
      some { snake with parts := head :: rest, direction := snake.nextDirection }

/-- The `do ... while (currentPart = currentPart->next)` loop of
`hasDeadlyCollisions`, with `currentPart` and the parts after it. -/
def collidesFrom (head : SnakePart) : SnakePart → List SnakePart → Bool
  | currentPart, rest =>
    if currentPart.x = head.x ∧ currentPart.y = head.y then true
    else
      match rest with
      | [] => false
      | next :: rest' => collidesFrom head next rest'

def hasDeadlyCollisions (snake : Snake) : Option Bool :=
  match snake.parts with
  | [] => none
  | head :: rest =>
    if head.x = 0
        ∨ head.x = WINDOW_WIDTH / TILE_SIZE - 1
        ∨ head.y = 0
        ∨ head.y = WINDOW_HEIGHT / TILE_SIZE - 1 then
      some true
    else
      match rest with
      | [] => none
      | second :: rest' => some (collidesFrom head second rest')

def isSnakeColidesWithPickup (snake : Snake) (pickup : Pickup) : Option Bool :=
  match snake.parts with
  | [] => none
  | head :: _ => some (decide (head.x = pickup.x ∧ head.y = pickup.y))

def resetSnake (snake : Snake) : Snake :=
  let snake := { snake with parts := [] }
  let snake := { snake with length := 0 }
  let snake := { snake with friction := SNAKE_INITIAL_FRICTION }
  let snake := { snake with direction := Direction.right }
  let snake := { snake with nextDirection := Direction.right }
  let snake := { snake with pickupsPending := 0 }
  let snake := addSnakePart snake (createSnakePart 7 3)
  let snake := addSnakePart snake (createSnakePart 6 3)
  let snake := addSnakePart snake (createSnakePart 5 3)
  addSnakePart snake (createSnakePart 5 4)

/-! ## The frame loop of `main` -/

inductive Key where
  | escape
  | up
  | down
  | left
  | right
  | space
  | other
deriving DecidableEq

inductive Event where
  | keyDown (sym : Key)
  | other
deriving DecidableEq

/-- The variables of `main` that the simulation reads and writes. -/
structure Game where
  state : GameState
  pickup : Pickup
  snake : Snake
  timeTillNextSnakeMove : Int
  randCalls : Nat
deriving DecidableEq

/-- A call `updatePickupLocation(&pickup)` inside `main`: two `rand()` calls. -/
def relocatePickup (rand : Nat → Nat) (g : Game) : Game :=
  { g with
    pickup := updatePickupLocation (rand g.randCalls) (rand (g.randCalls + 1)) g.pickup
    randCalls := g.randCalls + 2 }

/-- The direction cases of the key switch, on the snake. -/
def handleDirectionKey (snake : Snake) : Key → Snake
  | Key.up =>
    { snake with nextDirection :=
        if snake.direction ≠ Direction.bottom then Direction.top else snake.direction }
  | Key.down =>
    { snake with nextDirection :=
        if snake.direction ≠ Direction.top then Direction.bottom else snake.direction }
  | Key.left =>
    { snake with nextDirection :=
        if snake.direction ≠ Direction.right then Direction.left else snake.direction }
  | Key.right =>
    { snake with nextDirection :=
        if snake.direction ≠ Direction.left then Direction.right else snake.direction }
  | _ => snake

/-- One iteration of `while (SDL_PollEvent(&event))`. -/
def handleEvent (rand : Nat → Nat) (g : Game) : Event → Game
  | Event.other => g
  | Event.keyDown Key.escape => { g with state := GameState.quitRequested }
  | Event.keyDown Key.up => { g with snake := handleDirectionKey g.snake Key.up }
  | Event.keyDown Key.down => { g with snake := handleDirectionKey g.snake Key.down }
  | Event.keyDown Key.left => { g with snake := handleDirectionKey g.snake Key.left }
  | Event.keyDown Key.right => { g with snake := handleDirectionKey g.snake Key.right }
  | Event.keyDown Key.space =>
    match g.state with
    | GameState.lost =>
      let g := { g with snake := resetSnake g.snake }
      let g := relocatePickup rand g
      { g with state := GameState.running }
    | GameState.paused => { g with state := GameState.running }
    | GameState.running => { g with state := GameState.paused }
    | GameState.quitRequested => g
  | Event.keyDown Key.other => g

def handleEvents (rand : Nat → Nat) (g : Game) (events : List Event) : Game :=
  events.foldl (handleEvent rand) g

/-- Conversion of an `uint32_t` result to `int32_t`. -/
def toInt32 (n : Int) : Int :=
  let r := n % 2 ^ 32
  if r < 2 ^ 31 then r else r - 2 ^ 32

/-- The statement `timeTillNextSnakeMove -= timeDelta` with `timeDelta` of type
`uint32_t`: the subtraction is done modulo `2^32` and stored back as `int32_t`. -/
def subTimeDelta (timeTillNextSnakeMove : Int) (timeDelta : Nat) : Int :=
  toInt32 (timeTillNextSnakeMove - (timeDelta : Int))

/-- The statement `if (state != STATE_LOST && state != STATE_PAUSED)` that
updates the timer. -/
def updateTimer (g : Game) (timeDelta : Nat) : Game :=
  if g.state ≠ GameState.lost ∧ g.state ≠ GameState.paused then
    { g with timeTillNextSnakeMove := subTimeDelta g.timeTillNextSnakeMove timeDelta }
  else g

/-- The body of `if (timeTillNextSnakeMove <= 0)`. -/
def tickBody (rand : Nat → Nat) (g : Game) : Option Game :=
  match advanceSnakePosition g.snake with
  | none => none
  | some snake =>
    let g := { g with snake := snake }
    match isSnakeColidesWithPickup g.snake g.pickup with
    | none => none
    | some eats =>
      let g :=
        if eats then
          relocatePickup rand { g with snake := { g.snake with pickupsPending := g.snake.pickupsPending + 1 } }
        else g
      match hasDeadlyCollisions g.snake with
      | none => none
      | some deadly =>
        let g := if deadly then { g with state := GameState.lost } else g
        some { g with timeTillNextSnakeMove := g.snake.friction }

def tickSection (rand : Nat → Nat) (g : Game) : Option Game :=
  if g.timeTillNextSnakeMove ≤ 0 then tickBody rand g else some g

/-- One iteration of the `while (state != STATE_QUIT_REQUESTED)` loop, given the
events polled in it and the elapsed milliseconds. -/
def frame (rand : Nat → Nat) (g : Game) (events : List Event) (timeDelta : Nat) : Option Game :=
  tickSection rand (updateTimer (handleEvents rand g events) timeDelta)

/-- The local `Snake snake; snake.tail = NULL;` of `main` before its first
`resetSnake`; every field is overwritten by `resetSnake`. -/
def emptySnake : Snake :=
  { parts := [], direction := Direction.left, nextDirection := Direction.left,
    length := 0, friction := 0, pickupsPending := 0 }

/-- The variables of `main` on entry to the loop: state Paused, the pickup
placed by the first two `rand()` calls, the snake reset, and the timer set to
`snake.friction`. -/
def initGame (rand : Nat → Nat) : Game :=
  let pickup := updatePickupLocation (rand 0) (rand 1) { x := 0, y := 0 }
  let snake := resetSnake emptySnake
  { state := GameState.paused
    pickup := pickup
    snake := snake
    timeTillNextSnakeMove := snake.friction
    randCalls := 2 }

/-- The loop of `main` run on a list of frames (events and elapsed time of each);
the loop condition is tested before every frame. -/
def runFrames (rand : Nat → Nat) : Game → List (List Event × Nat) → Option Game
  | g, [] => some g
  | g, (events, timeDelta) :: more =>
    if g.state = GameState.quitRequested then some g
    else
      match frame rand g events timeDelta with
      | none => none
      | some g' => runFrames rand g' more

/-- States at the loop head of `main` after some number of frames. -/
inductive Reachable (rand : Nat → Nat) : Game → Prop where
  | init : Reachable rand (initGame rand)
  | step (g g' : Game) (events : List Event) (timeDelta : Nat) :
      Reachable rand g → g.state ≠ GameState.quitRequested →
      frame rand g events timeDelta = some g' → Reachable rand g'

/-! ## Specification vocabulary -/

/-- A cell moved one grid unit along a direction: left `x - 1`, right `x + 1`,
top `y - 1`, bottom `y + 1`. -/
def stepCell (d : Direction) (c : SnakePart) : SnakePart :=
  match d with
  | Direction.left => { c with x := c.x - 1 }
  | Direction.right => { c with x := c.x + 1 }
  | Direction.top => { c with y := c.y - 1 }
  | Direction.bottom => { c with y := c.y + 1 }

/-- The exact reverse of a direction. -/
def reverseDirection : Direction → Direction
  | Direction.left => Direction.right
  | Direction.right => Direction.left
  | Direction.top => Direction.bottom
  | Direction.bottom => Direction.top

/-- The arrow key that asks for a direction. -/
def directionKey : Direction → Key
  | Direction.top => Key.up
  | Direction.bottom => Key.down
  | Direction.left => Key.left
  | Direction.right => Key.right

/-- The tick section run `n` times in a row with the timer expired each time:
`n` consecutive simulation ticks. -/
def runTicks (rand : Nat → Nat) : Nat → Game → Option Game
  | 0, g => some g
  | n + 1, g =>
    match runTicks rand n g with
    | none => none
    | some g' => tickBody rand g'

/-- The facts about a game at the loop head that the frame loop maintains: the
chain has at least the four parts of a reset snake, the friction is between
the floor and the initial value, and the timer is positive. -/
def GameInv (g : Game) : Prop :=
  4 ≤ g.snake.parts.length ∧ 50 ≤ g.snake.friction ∧ g.snake.friction ≤ 250
    ∧ 0 < g.timeTillNextSnakeMove

/-- A sample generator: the first call returns 7, every later call 2. -/
def sampleRand : Nat → Nat :=
  fun k => if k = 0 then 7 else 2

/-- A running game whose snake heads right with its head at (33,3), one step
from the right wall, and whose timer expires after 250 ms. -/
def nearWallGame : Game :=
  { initGame sampleRand with
    state := GameState.running
    snake := { resetSnake emptySnake with parts := [⟨33, 3⟩, ⟨32, 3⟩, ⟨31, 3⟩, ⟨30, 3⟩] } }

/-- Frames from game start that bring the head to (33,3): Space with an expired
timer, then 25 more expired ticks without input. -/
def framesToWall : List (List Event × Nat) :=
  ([Event.keyDown Key.space], 250) :: List.replicate 25 ([], 250)

/-- A cell on the outer ring of the 35 x 35 grid, as tested by
`hasDeadlyCollisions`. -/
def onWall (c : SnakePart) : Prop :=
  c.x = 0 ∨ c.x = 34 ∨ c.y = 0 ∨ c.y = 34

/-- Whether the tick run on `g` consumes the pickup: the head's cell after
`advanceSnakePosition` equals the pickup's cell. -/
def tickConsumes (g : Game) : Bool :=
  match advanceSnakePosition g.snake with
  | none => false
  | some snake =>
    match isSnakeColidesWithPickup snake g.pickup with
    | some true => true
    | _ => false

/-- A sample generator: calls number 0, 2, 4, ... return 7 and the others 2, so
that every placement of the pickup is at (8,3). -/
def altRand : Nat → Nat :=
  fun k => if k % 2 = 0 then 7 else 2

/-- Frames from game start under `altRand`: Space and a tick that eats the
pickup at (8,3), a tick that grows the snake, then a turn down, a turn left
and a turn up, each followed by a tick. -/
def uTurnFrames : List (List Event × Nat) :=
  [([Event.keyDown Key.space], 250), ([], 250), ([Event.keyDown Key.down], 250),
    ([Event.keyDown Key.left], 250), ([Event.keyDown Key.up], 250)]

/-- Frames from game start under `sampleRand`: the run to the right wall, the
tick onto the wall at (34,3), then four frames that each poll Escape with an
expired timer, the first also polling Up. -/
def offGridFrames : List (List Event × Nat) :=
  framesToWall ++
    [([], 250), ([Event.keyDown Key.up, Event.keyDown Key.escape], 250),
      ([Event.keyDown Key.escape], 250), ([Event.keyDown Key.escape], 250),
      ([Event.keyDown Key.escape], 250)]

/-- A lost game with the pickup at (20,20) and 40 `rand()` calls made. -/
def lostGame : Game :=
  { nearWallGame with
    state := GameState.lost
    pickup := { x := 20, y := 20 }
    randCalls := 40 }

/-- A running game whose snake heads right with its head at (7,3), whose pickup
is at (8,3) and whose timer expires after 250 ms. -/
def aboutToEatGame : Game :=
  { initGame sampleRand with state := GameState.running }

/-- Whether handling the events resets the snake: some Space key is handled
while the state is Lost. -/
def eventsReset (rand : Nat → Nat) : Game → List Event → Bool
  | _, [] => false
  | g, e :: events =>
    decide (e = Event.keyDown Key.space ∧ g.state = GameState.lost)
      || eventsReset rand (handleEvent rand g e) events

/-- Whether some frame of the run of `runFrames` resets the snake. -/
def framesReset (rand : Nat → Nat) : Game → List (List Event × Nat) → Bool
  | _, [] => false
  | g, (events, timeDelta) :: more =>
    if g.state = GameState.quitRequested then false
    else
      eventsReset rand g events ||
        (match frame rand g events timeDelta with
          | none => false
          | some g' => framesReset rand g' more)

/-- Whether the tick of the frame fires and consumes the pickup. -/
def frameConsumes (rand : Nat → Nat) (g : Game) (events : List Event) (timeDelta : Nat) : Bool :=
  decide ((updateTimer (handleEvents rand g events) timeDelta).timeTillNextSnakeMove ≤ 0)
    && tickConsumes (updateTimer (handleEvents rand g events) timeDelta)

/-- The number of pickup consumptions in the run of `runFrames`. -/
def consumptionsIn (rand : Nat → Nat) : Game → List (List Event × Nat) → Nat
  | _, [] => 0
  | g, (events, timeDelta) :: more =>
    if g.state = GameState.quitRequested then 0
    else
      (if frameConsumes rand g events timeDelta then 1 else 0) +
        (match frame rand g events timeDelta with
          | none => 0
          | some g' => consumptionsIn rand g' more)

/-- A running game under `altRand` whose five-part snake heads down after a
turn, with one pickup pending. -/
def turnedGame : Game :=
  { initGame altRand with
    state := GameState.running
    snake :=
      { parts := [⟨9, 4⟩, ⟨9, 3⟩, ⟨8, 3⟩, ⟨7, 3⟩, ⟨6, 3⟩]
        direction := Direction.bottom
        nextDirection := Direction.bottom
        length := 6
        friction := 246
        pickupsPending := 1 } }

/-! ## Machine arithmetic of `advanceSnakePosition` -/

/-- An integer that an `int32_t` variable can hold. -/
def InInt32 (n : Int) : Prop :=
  -2147483648 ≤ n ∧ n ≤ 2147483647

/-- The function `addSnakePart` with its `int32_t` store to `length` reduced to
32 bits. -/
def addSnakePart32 (snake : Snake) (part : SnakePart) : Snake :=
  let snake := { snake with length := toInt32 (snake.length + 1) }
  match snake.parts with
  | [] => { snake with parts := [part] }
  | _ :: _ => { snake with parts := snake.parts ++ [part] }

/-- The function `advanceSnakePosition` as the compiled program computes it:
the same statements, with every `int32_t` store (`pickupsPending`, `length`,
`friction` and the head's coordinate) reduced to 32 bits in two's complement.
It returns what `advanceSnakePosition` returns whenever the stored values fit
`int32_t`. -/
def advanceSnakePosition32 (snake : Snake) : Option Snake :=
  match snake.parts.getLast? with
  | none => none
  | some tail =>
    let lastX := tail.x
    let lastY := tail.y
    let snake := { snake with parts := shiftParts snake.parts (snake.parts.length - 1) }
    let snake :=
      if snake.pickupsPending > 0 then
        let snake := addSnakePart32 snake (createSnakePart lastX lastY)
        let snake := { snake with pickupsPending := toInt32 (snake.pickupsPending - 1) }
        let snake := { snake with length := toInt32 (snake.length + 1) }
        let snake :=
          { snake with friction := toInt32 (snake.friction - SNAKE_FRICTION_REDUCTION_PER_PART) }
        if snake.friction < SNAKE_MIN_FRICTION then
          { snake with friction := SNAKE_MIN_FRICTION }
        else snake
      else snake
    match snake.parts with
    | [] => none
    | head :: rest =>
      let head :=
        match snake.nextDirection with
        | Direction.left => { head with x := toInt32 (head.x - 1) }
        | Direction.right => { head with x := toInt32 (head.x + 1) }
        | Direction.top => { head with y := toInt32 (head.y - 1) }
        | Direction.bottom => { head with y := toInt32 (head.y + 1) }
      some { snake with parts := head :: rest, direction := snake.nextDirection }

/-- A cell moved one grid unit along a direction in `int32_t` arithmetic. -/
def stepCell32 (d : Direction) (c : SnakePart) : SnakePart :=
  match d with
  | Direction.left => { c with x := toInt32 (c.x - 1) }
  | Direction.right => { c with x := toInt32 (c.x + 1) }
  | Direction.top => { c with y := toInt32 (c.y - 1) }
  | Direction.bottom => { c with y := toInt32 (c.y + 1) }

/-- A snake heading right with no pickup pending whose head is at the largest
`int32_t` abscissa, 2147483647. -/
def int32MaxSnake : Snake :=
  { resetSnake emptySnake with
    parts := [⟨2147483647, 3⟩, ⟨2147483646, 3⟩, ⟨2147483645, 3⟩, ⟨2147483644, 3⟩] }

/-! ## Lemmas on the body operations -/

theorem getElem?_shiftParts : ∀ (i : Nat) (l : List SnakePart), i < l.length → ∀ j,
    (shiftParts l i)[j]? = if j = 0 then l[0]? else if j ≤ i then l[j - 1]? else l[j]?
  | 0, l, _, j => by
    by_cases hj : j = 0
    · simp [shiftParts, hj]
    · simp [shiftParts, hj]
  | i + 1, l, h, j => by
    have hi : i < l.length := by omega
    have hlen : i < (l.set (i + 1) l[i]).length := by simpa using hi
    simp only [shiftParts, List.getElem?_eq_getElem hi]
    rw [getElem?_shiftParts i _ hlen j]
    simp only [List.getElem?_set]
    by_cases hj0 : j = 0
    · subst hj0; simp
    · by_cases hji : j ≤ i
      · have e1 : ¬ (i + 1 = j - 1) := by omega
        have e2 : j ≤ i + 1 := by omega
        simp [hj0, hji, e1, e2]
      · by_cases hj1 : j = i + 1
        · subst hj1; simp [h, List.getElem?_eq_getElem hi]
        · have e1 : ¬ (i + 1 = j) := by omega
          have e2 : ¬ (j ≤ i + 1) := by omega
          simp [hj0, hji, e1, e2]

theorem shiftParts_cons (head : SnakePart) (rest : List SnakePart) :
    shiftParts (head :: rest) ((head :: rest).length - 1) = head :: (head :: rest).dropLast := by
  apply List.ext_getElem?
  intro j
  rw [getElem?_shiftParts _ _ (by simp)]
  cases j with
  | zero => simp
  | succ k =>
    simp only [List.getElem?_cons_succ, List.getElem?_dropLast, List.length_cons,
      Nat.add_sub_cancel]
    by_cases hk : k < rest.length
    · have : k + 1 ≤ rest.length := hk
      simp [hk, this]
    · have : ¬ (k + 1 ≤ rest.length) := by omega
      have h2 : rest.length ≤ k := by omega
      simp [hk, this, List.getElem?_eq_none h2]

theorem addSnakePart_parts (snake : Snake) (part : SnakePart) :
    (addSnakePart snake part).parts = snake.parts ++ [part] := by
  unfold addSnakePart
  cases h : snake.parts <;> simp [h]

theorem addSnakePart_fields (snake : Snake) (part : SnakePart) :
    (addSnakePart snake part).length = snake.length + 1
    ∧ (addSnakePart snake part).friction = snake.friction
    ∧ (addSnakePart snake part).pickupsPending = snake.pickupsPending
    ∧ (addSnakePart snake part).direction = snake.direction
    ∧ (addSnakePart snake part).nextDirection = snake.nextDirection := by
  unfold addSnakePart
  cases h : snake.parts <;> simp [h]

theorem addSnakePart_eq (snake : Snake) (part : SnakePart) :
    addSnakePart snake part =
      { snake with parts := snake.parts ++ [part], length := snake.length + 1 } := by
  unfold addSnakePart
  cases h : snake.parts <;> simp [h]

theorem advanceSnakePosition_cons (snake : Snake) (head : SnakePart) (rest : List SnakePart)
    (hp : snake.parts = head :: rest) :
    advanceSnakePosition snake = some
      (if snake.pickupsPending > 0 then
        { parts := stepCell snake.nextDirection head :: head :: rest
          direction := snake.nextDirection
          nextDirection := snake.nextDirection
          length := snake.length + 1 + 1
          friction :=
            if snake.friction - SNAKE_FRICTION_REDUCTION_PER_PART < SNAKE_MIN_FRICTION then
              SNAKE_MIN_FRICTION
            else snake.friction - SNAKE_FRICTION_REDUCTION_PER_PART
          pickupsPending := snake.pickupsPending - 1 }
      else
        { snake with
          parts := stepCell snake.nextDirection head :: (head :: rest).dropLast
          direction := snake.nextDirection }) := by
  have hne : head :: rest ≠ [] := by simp
  have hlast : (head :: rest).getLast? = some ((head :: rest).getLast hne) :=
    List.getLast?_eq_getLast _ hne
  have hdl : (head :: rest).dropLast ++ [(head :: rest).getLast hne] = head :: rest :=
    List.dropLast_append_getLast hne
  unfold advanceSnakePosition
  rw [hp, hlast]
  simp only [shiftParts_cons, addSnakePart_eq, createSnakePart]
  by_cases hk : snake.pickupsPending > 0
  · simp only [hk, if_true]
    by_cases hf : snake.friction - SNAKE_FRICTION_REDUCTION_PER_PART < SNAKE_MIN_FRICTION
    · simp only [hf, if_true, List.cons_append, hdl]
      cases snake.nextDirection <;> rfl
    · simp only [hf, if_false, List.cons_append, hdl]
      cases snake.nextDirection <;> rfl
  · simp only [hk, if_false]
    cases snake.nextDirection <;> rfl

theorem advanceSnakePosition_length (snake : Snake) (hne : snake.parts ≠ []) :
    ∃ s', advanceSnakePosition snake = some s' ∧
      s'.length = (if snake.pickupsPending > 0 then snake.length + 2 else snake.length) ∧
      s'.parts.length =
        (if snake.pickupsPending > 0 then snake.parts.length + 1 else snake.parts.length) := by
  obtain ⟨head, rest, hp⟩ := List.exists_cons_of_ne_nil hne
  refine ⟨_, advanceSnakePosition_cons snake head rest hp, ?_, ?_⟩
  · by_cases hk : snake.pickupsPending > 0
    · simp only [hk, if_true]; omega
    · simp only [hk, if_false]
  · by_cases hk : snake.pickupsPending > 0
    · simp only [hk, if_true, hp, List.length_cons]
    · simp only [hk, if_false, hp, List.length_cons, List.length_dropLast]
      omega

theorem toInt32_of_fits (n : Int) (h : InInt32 n) : toInt32 n = n := by
  obtain ⟨hlo, hhi⟩ := h
  unfold toInt32
  have h32 : (2 : Int) ^ 32 = 4294967296 := by norm_num
  have h31 : (2 : Int) ^ 31 = 2147483648 := by norm_num
  simp only [h32, h31]
  split <;> omega

theorem addSnakePart32_eq (snake : Snake) (part : SnakePart) :
    addSnakePart32 snake part =
      { snake with parts := snake.parts ++ [part], length := toInt32 (snake.length + 1) } := by
  unfold addSnakePart32
  cases h : snake.parts <;> simp [h]

theorem advanceSnakePosition32_cons (snake : Snake) (head : SnakePart) (rest : List SnakePart)
    (hp : snake.parts = head :: rest) :
    advanceSnakePosition32 snake = some
      (if snake.pickupsPending > 0 then
        { parts := stepCell32 snake.nextDirection head :: head :: rest
          direction := snake.nextDirection
          nextDirection := snake.nextDirection
          length := toInt32 (toInt32 (snake.length + 1) + 1)
          friction :=
            if toInt32 (snake.friction - SNAKE_FRICTION_REDUCTION_PER_PART)
                < SNAKE_MIN_FRICTION then
              SNAKE_MIN_FRICTION
            else toInt32 (snake.friction - SNAKE_FRICTION_REDUCTION_PER_PART)
          pickupsPending := toInt32 (snake.pickupsPending - 1) }
      else
        { snake with
          parts := stepCell32 snake.nextDirection head :: (head :: rest).dropLast
          direction := snake.nextDirection }) := by
  have hne : head :: rest ≠ [] := by simp
  have hlast : (head :: rest).getLast? = some ((head :: rest).getLast hne) :=
    List.getLast?_eq_getLast _ hne
  have hdl : (head :: rest).dropLast ++ [(head :: rest).getLast hne] = head :: rest :=
    List.dropLast_append_getLast hne
  unfold advanceSnakePosition32
  rw [hp, hlast]
  simp only [shiftParts_cons, addSnakePart32_eq, createSnakePart]
  by_cases hk : snake.pickupsPending > 0
  · simp only [hk, if_true]
    by_cases hf : toInt32 (snake.friction - SNAKE_FRICTION_REDUCTION_PER_PART)
        < SNAKE_MIN_FRICTION
    · simp only [hf, if_true, List.cons_append, hdl]
      cases snake.nextDirection <;> rfl
    · simp only [hf, if_false, List.cons_append, hdl]
      cases snake.nextDirection <;> rfl
  · simp only [hk, if_false]
    cases snake.nextDirection <;> rfl

theorem stepCell32_of_fits (d : Direction) (c : SnakePart)
    (h : InInt32 (stepCell d c).x ∧ InInt32 (stepCell d c).y) :
    stepCell32 d c = stepCell d c := by
  cases d
  · have hx : toInt32 (c.x - 1) = c.x - 1 := toInt32_of_fits _ h.1
    simp only [stepCell32, stepCell, hx]
  · have hx : toInt32 (c.x + 1) = c.x + 1 := toInt32_of_fits _ h.1
    simp only [stepCell32, stepCell, hx]
  · have hy : toInt32 (c.y - 1) = c.y - 1 := toInt32_of_fits _ h.2
    simp only [stepCell32, stepCell, hy]
  · have hy : toInt32 (c.y + 1) = c.y + 1 := toInt32_of_fits _ h.2
    simp only [stepCell32, stepCell, hy]

/-- The 32-bit function returns what `advanceSnakePosition` returns whenever the
moved head cell and, on the growth path, the new values of `length`,
`pickupsPending` and `friction` fit `int32_t`. -/
theorem advanceSnakePosition32_eq_of_fits (snake : Snake) (head : SnakePart)
    (rest : List SnakePart) (hp : snake.parts = head :: rest)
    (hmove : InInt32 (stepCell snake.nextDirection head).x
      ∧ InInt32 (stepCell snake.nextDirection head).y)
    (hgrow : snake.pickupsPending > 0 →
      InInt32 (snake.length + 1) ∧ InInt32 (snake.length + 1 + 1)
        ∧ InInt32 (snake.pickupsPending - 1)
        ∧ InInt32 (snake.friction - SNAKE_FRICTION_REDUCTION_PER_PART)) :
    advanceSnakePosition32 snake = advanceSnakePosition snake := by
  rw [advanceSnakePosition32_cons snake head rest hp, advanceSnakePosition_cons snake head rest hp,
    stepCell32_of_fits _ _ hmove]
  by_cases hk : snake.pickupsPending > 0
  · obtain ⟨h1, h2, h3, h4⟩ := hgrow hk
    simp only [hk, if_true]
    rw [toInt32_of_fits _ h1, toInt32_of_fits _ h2, toInt32_of_fits _ h3, toInt32_of_fits _ h4]
  · simp only [hk, if_false]

/-! ## Claims -/

/-- C1, growth case at a concrete body: the freshly reset snake has `length` 4;
with one pickup pending, `advanceSnakePosition` returns a snake whose `length`
field is 6 (the previous value plus 2, not plus 1) while its chain has 5 parts. -/
theorem C1_growth_adds_two_to_length :
    (resetSnake emptySnake).length = 4 ∧
    (advanceSnakePosition { resetSnake emptySnake with pickupsPending := 1 }).map
      (fun s => (s.length, s.parts.length)) = some (6, 5) := by
  decide

/-- C2, at a state reached from game start: with the pickup first placed at
(8,3), Space followed by two expired ticks gives a running game whose snake has
`length` 6 and a chain of 5 parts, so `length` differs from the number of
parts. -/
theorem C2_length_differs_from_part_count_after_growth :
    (runFrames sampleRand (initGame sampleRand)
        [([Event.keyDown Key.space], 250), ([], 250)]).map
      (fun g => (g.state, g.snake.length, g.snake.parts.length))
      = some (GameState.running, 6, 5) := by
  decide!

/-- C3 as stated fails at the bound of `int32_t`: for the body with head
(2147483647,3) heading right and no pickup pending, the head's abscissa after
the call is -2147483648, not 2147483647 + 1; the other parts shift as
claimed. -/
theorem C3_head_wraps_at_int32_bound :
    int32MaxSnake.parts.head? = some ⟨2147483647, 3⟩ ∧
    int32MaxSnake.nextDirection = Direction.right ∧
    int32MaxSnake.pickupsPending = 0 ∧
    (advanceSnakePosition32 int32MaxSnake).map (fun s => s.parts)
      = some [⟨-2147483648, 3⟩, ⟨2147483647, 3⟩, ⟨2147483646, 3⟩, ⟨2147483645, 3⟩] ∧
    (-2147483648 : Int) ≠ 2147483647 + 1 := by
  decide

/-- C3, amended: for a body of `n ≥ 1` parts with no pickup pending,
`advanceSnakePosition` returns a body of `n` parts in which part `i`
(`1 ≤ i < n`) holds the cell part `i - 1` held before, `direction` becomes
`nextDirection`, and the head holds its old cell with one coordinate replaced
by the `int32_t` value of `x - 1` (left), `x + 1` (right), `y - 1` (top) or
`y + 1` (bottom); that is exactly one unit along `nextDirection` whenever the
moved coordinate fits `int32_t`. -/
theorem C3_advance_without_growth_int32 (snake : Snake) (hn : 1 ≤ snake.parts.length)
    (hk : snake.pickupsPending = 0) :
    ∃ s' oldHead newHead,
      advanceSnakePosition32 snake = some s' ∧
      snake.parts[0]? = some oldHead ∧
      s'.parts[0]? = some newHead ∧
      s'.parts.length = snake.parts.length ∧
      (∀ i, 1 ≤ i → i < snake.parts.length → s'.parts[i]? = snake.parts[i - 1]?) ∧
      (snake.nextDirection = Direction.left →
        newHead.x = toInt32 (oldHead.x - 1) ∧ newHead.y = oldHead.y ∧
        (InInt32 (oldHead.x - 1) → newHead.x = oldHead.x - 1)) ∧
      (snake.nextDirection = Direction.right →
        newHead.x = toInt32 (oldHead.x + 1) ∧ newHead.y = oldHead.y ∧
        (InInt32 (oldHead.x + 1) → newHead.x = oldHead.x + 1)) ∧
      (snake.nextDirection = Direction.top →
        newHead.x = oldHead.x ∧ newHead.y = toInt32 (oldHead.y - 1) ∧
        (InInt32 (oldHead.y - 1) → newHead.y = oldHead.y - 1)) ∧
      (snake.nextDirection = Direction.bottom →
        newHead.x = oldHead.x ∧ newHead.y = toInt32 (oldHead.y + 1) ∧
        (InInt32 (oldHead.y + 1) → newHead.y = oldHead.y + 1)) ∧
      s'.direction = snake.nextDirection := by
  have hne : snake.parts ≠ [] := by
    intro h; rw [h] at hn; simp at hn
  obtain ⟨head, rest, hp⟩ := List.exists_cons_of_ne_nil hne
  have hk' : ¬ snake.pickupsPending > 0 := by omega
  have hadv := advanceSnakePosition32_cons snake head rest hp
  simp only [hk', if_false] at hadv
  refine ⟨_, head, stepCell32 snake.nextDirection head, hadv, by simp [hp], by simp, ?_, ?_,
    ?_, ?_, ?_, ?_, rfl⟩
  · simp only [hp, List.length_cons, List.length_dropLast]
    omega
  · intro i hi1 hin
    obtain ⟨k, rfl⟩ : ∃ k, i = k + 1 := ⟨i - 1, by omega⟩
    have hk2 : k < (head :: rest).length - 1 := by
      rw [hp] at hin; simp only [List.length_cons] at hin ⊢; omega
    simp only [List.getElem?_cons_succ, List.getElem?_dropLast, hk2, if_true, hp,
      Nat.add_sub_cancel]
  · intro hd
    rw [hd]
    exact ⟨rfl, rfl, fun hfit => toInt32_of_fits _ hfit⟩
  · intro hd
    rw [hd]
    exact ⟨rfl, rfl, fun hfit => toInt32_of_fits _ hfit⟩
  · intro hd
    rw [hd]
    exact ⟨rfl, rfl, fun hfit => toInt32_of_fits _ hfit⟩
  · intro hd
    rw [hd]
    exact ⟨rfl, rfl, fun hfit => toInt32_of_fits _ hfit⟩

/-- C3 (amended) at the fresh body (7,3),(6,3),(5,3),(5,4) heading right: the
result is (8,3),(7,3),(6,3),(5,3), still 4 parts. -/
theorem C3_advance_without_growth_int32_witness :
    1 ≤ (resetSnake emptySnake).parts.length ∧
    (resetSnake emptySnake).pickupsPending = 0 ∧
    (resetSnake emptySnake).nextDirection = Direction.right ∧
    (advanceSnakePosition32 (resetSnake emptySnake)).map (fun s => s.parts)
        = some [⟨8, 3⟩, ⟨7, 3⟩, ⟨6, 3⟩, ⟨5, 3⟩] ∧
    ∃ s' oldHead newHead,
      advanceSnakePosition32 (resetSnake emptySnake) = some s' ∧
      (resetSnake emptySnake).parts[0]? = some oldHead ∧
      s'.parts[0]? = some newHead ∧
      s'.parts.length = (resetSnake emptySnake).parts.length ∧
      (∀ i, 1 ≤ i → i < (resetSnake emptySnake).parts.length →
        s'.parts[i]? = (resetSnake emptySnake).parts[i - 1]?) ∧
      ((resetSnake emptySnake).nextDirection = Direction.left →
        newHead.x = toInt32 (oldHead.x - 1) ∧ newHead.y = oldHead.y ∧
        (InInt32 (oldHead.x - 1) → newHead.x = oldHead.x - 1)) ∧
      ((resetSnake emptySnake).nextDirection = Direction.right →
        newHead.x = toInt32 (oldHead.x + 1) ∧ newHead.y = oldHead.y ∧
        (InInt32 (oldHead.x + 1) → newHead.x = oldHead.x + 1)) ∧
      ((resetSnake emptySnake).nextDirection = Direction.top →
        newHead.x = oldHead.x ∧ newHead.y = toInt32 (oldHead.y - 1) ∧
        (InInt32 (oldHead.y - 1) → newHead.y = oldHead.y - 1)) ∧
      ((resetSnake emptySnake).nextDirection = Direction.bottom →
        newHead.x = oldHead.x ∧ newHead.y = toInt32 (oldHead.y + 1) ∧
        (InInt32 (oldHead.y + 1) → newHead.y = oldHead.y + 1)) ∧
      s'.direction = (resetSnake emptySnake).nextDirection :=
  ⟨by decide, by decide, by decide, by decide,
    C3_advance_without_growth_int32 (resetSnake emptySnake) (by decide) (by decide)⟩

/-- C4: for a body of `n ≥ 1` parts with `k > 0` pickups pending,
`advanceSnakePosition` returns a body of `n + 1` parts: the `n` parts of the
result without growth (shifted chain with moved head) followed by one new last
part at the cell the tail held before the call; `pickupsPending` becomes
`k - 1`. -/
theorem C4_advance_with_growth (snake : Snake) (hn : 1 ≤ snake.parts.length)
    (hk : 0 < snake.pickupsPending) :
    ∃ s' s0 oldTail,
      advanceSnakePosition snake = some s' ∧
      advanceSnakePosition { snake with pickupsPending := 0 } = some s0 ∧
      snake.parts.getLast? = some oldTail ∧
      s'.parts.length = snake.parts.length + 1 ∧
      s0.parts.length = snake.parts.length ∧
      s'.parts = s0.parts ++ [oldTail] ∧
      s'.pickupsPending = snake.pickupsPending - 1 := by
  have hne : snake.parts ≠ [] := by
    intro h; rw [h] at hn; simp at hn
  obtain ⟨head, rest, hp⟩ := List.exists_cons_of_ne_nil hne
  have hcons : head :: rest ≠ [] := by simp
  have hadv := advanceSnakePosition_cons snake head rest hp
  have hadv0 := advanceSnakePosition_cons { snake with pickupsPending := 0 } head rest hp
  have hk' : snake.pickupsPending > 0 := hk
  simp only [hk', if_true] at hadv
  simp only [gt_iff_lt, lt_self_iff_false, if_false] at hadv0
  refine ⟨_, _, (head :: rest).getLast hcons, hadv, hadv0, ?_, ?_, ?_, ?_, rfl⟩
  · rw [hp]; exact List.getLast?_eq_getLast _ hcons
  · simp [hp]
  · simp only [hp, List.length_cons, List.length_dropLast]
    omega
  · simp only [List.cons_append, List.dropLast_append_getLast hcons]

/-- C4 at the fresh body with one pickup pending: the result is
(8,3),(7,3),(6,3),(5,3),(5,4) with no pickup pending. -/
theorem C4_advance_with_growth_witness :
    1 ≤ ({ resetSnake emptySnake with pickupsPending := 1 } : Snake).parts.length ∧
    0 < ({ resetSnake emptySnake with pickupsPending := 1 } : Snake).pickupsPending ∧
    (advanceSnakePosition { resetSnake emptySnake with pickupsPending := 1 }).map
        (fun s => (s.parts, s.pickupsPending))
      = some ([⟨8, 3⟩, ⟨7, 3⟩, ⟨6, 3⟩, ⟨5, 3⟩, ⟨5, 4⟩], 0) ∧
    ∃ s' s0 oldTail,
      advanceSnakePosition { resetSnake emptySnake with pickupsPending := 1 } = some s' ∧
      advanceSnakePosition
        { ({ resetSnake emptySnake with pickupsPending := 1 } : Snake) with
          pickupsPending := 0 } = some s0 ∧
      ({ resetSnake emptySnake with pickupsPending := 1 } : Snake).parts.getLast?
        = some oldTail ∧
      s'.parts.length
        = ({ resetSnake emptySnake with pickupsPending := 1 } : Snake).parts.length + 1 ∧
      s0.parts.length
        = ({ resetSnake emptySnake with pickupsPending := 1 } : Snake).parts.length ∧
      s'.parts = s0.parts ++ [oldTail] ∧
      s'.pickupsPending
        = ({ resetSnake emptySnake with pickupsPending := 1 } : Snake).pickupsPending - 1 :=
  ⟨by decide, by decide, by decide,
    C4_advance_with_growth { resetSnake emptySnake with pickupsPending := 1 }
      (by decide) (by decide)⟩

/-! ## Lemmas on the collision checks and the tick section -/

theorem collidesFrom_iff (head : SnakePart) : ∀ (rest : List SnakePart) (currentPart : SnakePart),
    collidesFrom head currentPart rest = true ↔
      ∃ p ∈ currentPart :: rest, p.x = head.x ∧ p.y = head.y
  | [], currentPart => by
    unfold collidesFrom
    by_cases h : currentPart.x = head.x ∧ currentPart.y = head.y
    · simp [h]
    · simp only [h, if_false, List.mem_singleton, exists_eq_left]
      simp
  | next :: rest, currentPart => by
    unfold collidesFrom
    by_cases h : currentPart.x = head.x ∧ currentPart.y = head.y
    · simp [h]
    · simp only [h, if_false]
      rw [collidesFrom_iff head rest next]
      constructor
      · rintro ⟨p, hp, hx⟩
        exact ⟨p, List.mem_cons_of_mem _ hp, hx⟩
      · rintro ⟨p, hp, hx⟩
        rcases List.mem_cons.1 hp with rfl | hp'
        · exact absurd hx h
        · exact ⟨p, hp', hx⟩

theorem gridMax_eq : WINDOW_WIDTH / TILE_SIZE - 1 = 34 ∧ WINDOW_HEIGHT / TILE_SIZE - 1 = 34 := by
  decide

theorem hasDeadlyCollisions_cons_cons (snake : Snake) (head second : SnakePart)
    (rest : List SnakePart) (hp : snake.parts = head :: second :: rest) :
    ∃ b, hasDeadlyCollisions snake = some b ∧
      (b = true ↔
        (head.x = 0 ∨ head.x = 34 ∨ head.y = 0 ∨ head.y = 34
          ∨ ∃ p ∈ second :: rest, p.x = head.x ∧ p.y = head.y)) := by
  unfold hasDeadlyCollisions
  rw [hp]
  simp only [gridMax_eq.1, gridMax_eq.2]
  by_cases hw : head.x = 0 ∨ head.x = 34 ∨ head.y = 0 ∨ head.y = 34
  · refine ⟨true, by simp only [hw, if_true], ?_⟩
    simp only [true_iff]
    rcases hw with h | h | h | h
    · exact Or.inl h
    · exact Or.inr (Or.inl h)
    · exact Or.inr (Or.inr (Or.inl h))
    · exact Or.inr (Or.inr (Or.inr (Or.inl h)))
  · refine ⟨collidesFrom head second rest, by simp only [hw, if_false], ?_⟩
    rw [collidesFrom_iff]
    constructor
    · intro h
      exact Or.inr (Or.inr (Or.inr (Or.inr h)))
    · rintro (h | h | h | h | h)
      · exact absurd (Or.inl h) hw
      · exact absurd (Or.inr (Or.inl h)) hw
      · exact absurd (Or.inr (Or.inr (Or.inl h))) hw
      · exact absurd (Or.inr (Or.inr (Or.inr h))) hw
      · exact h

/-- C7: for a body of at least two parts `hasDeadlyCollisions` returns a
Boolean, and it is true exactly when the head's x is 0 or 34, or the head's y
is 0 or 34, or some part after the head, anywhere from the second part to the
tail, is on the head's cell; in particular a part at any index `i ≥ 1` on the
head's cell is detected.  The function only reads the body: its embedding
returns the Boolean alone. -/
theorem C7_deadly_collisions_iff (snake : Snake) (h2 : 2 ≤ snake.parts.length) :
    ∃ head rest b,
      snake.parts = head :: rest ∧
      hasDeadlyCollisions snake = some b ∧
      (b = true ↔
        (head.x = 0 ∨ head.x = 34 ∨ head.y = 0 ∨ head.y = 34
          ∨ ∃ p ∈ rest, p.x = head.x ∧ p.y = head.y)) ∧
      (∀ i p, 1 ≤ i → snake.parts[i]? = some p → p.x = head.x ∧ p.y = head.y →
        b = true) := by
  match hp : snake.parts, h2 with
  | head :: second :: rest, _ =>
    obtain ⟨b, hb, hiff⟩ := hasDeadlyCollisions_cons_cons snake head second rest hp
    refine ⟨head, second :: rest, b, rfl, hb, hiff, ?_⟩
    intro i p hi hget hcell
    obtain ⟨k, rfl⟩ : ∃ k, i = k + 1 := ⟨i - 1, by omega⟩
    rw [List.getElem?_cons_succ] at hget
    have hmem : p ∈ second :: rest := List.mem_iff_getElem?.2 ⟨k, hget⟩
    exact hiff.2 (Or.inr (Or.inr (Or.inr (Or.inr ⟨p, hmem, hcell⟩))))
  | [_], h => simp at h
  | [], h => simp at h

/-- C7 at a folded body of length 5 away from the walls whose head cell (5,5)
is also the cell of its last part: the collision is reported. -/
theorem C7_deadly_collisions_iff_witness :
    2 ≤ ({ resetSnake emptySnake with
            parts := [⟨5, 5⟩, ⟨5, 6⟩, ⟨6, 6⟩, ⟨6, 5⟩, ⟨5, 5⟩] } : Snake).parts.length ∧
    hasDeadlyCollisions
      { resetSnake emptySnake with
        parts := [⟨5, 5⟩, ⟨5, 6⟩, ⟨6, 6⟩, ⟨6, 5⟩, ⟨5, 5⟩] } = some true ∧
    hasDeadlyCollisions (resetSnake emptySnake) = some false ∧
    ∃ head rest b,
      ({ resetSnake emptySnake with
          parts := [⟨5, 5⟩, ⟨5, 6⟩, ⟨6, 6⟩, ⟨6, 5⟩, ⟨5, 5⟩] } : Snake).parts = head :: rest ∧
      hasDeadlyCollisions
        { resetSnake emptySnake with
          parts := [⟨5, 5⟩, ⟨5, 6⟩, ⟨6, 6⟩, ⟨6, 5⟩, ⟨5, 5⟩] } = some b ∧
      (b = true ↔
        (head.x = 0 ∨ head.x = 34 ∨ head.y = 0 ∨ head.y = 34
          ∨ ∃ p ∈ rest, p.x = head.x ∧ p.y = head.y)) ∧
      (∀ i p, 1 ≤ i →
        ({ resetSnake emptySnake with
            parts := [⟨5, 5⟩, ⟨5, 6⟩, ⟨6, 6⟩, ⟨6, 5⟩, ⟨5, 5⟩] } : Snake).parts[i]? = some p →
        p.x = head.x ∧ p.y = head.y → b = true) :=
  ⟨by decide, by decide, by decide,
    C7_deadly_collisions_iff
      { resetSnake emptySnake with parts := [⟨5, 5⟩, ⟨5, 6⟩, ⟨6, 6⟩, ⟨6, 5⟩, ⟨5, 5⟩] }
      (by decide)⟩

theorem advanceSnakePosition_friction (snake : Snake) (hne : snake.parts ≠ []) :
    ∃ s', advanceSnakePosition snake = some s' ∧
      s'.friction =
        (if snake.pickupsPending > 0 then max 50 (snake.friction - 4) else snake.friction) ∧
      snake.parts.length ≤ s'.parts.length := by
  obtain ⟨head, rest, hp⟩ := List.exists_cons_of_ne_nil hne
  refine ⟨_, advanceSnakePosition_cons snake head rest hp, ?_, ?_⟩
  · by_cases hk : snake.pickupsPending > 0
    · simp only [hk, if_true, SNAKE_FRICTION_REDUCTION_PER_PART, SNAKE_MIN_FRICTION]
      by_cases hf : snake.friction - 4 < 50
      · simp only [hf, if_true]; omega
      · simp only [hf, if_false]; omega
    · simp only [hk, if_false]
  · by_cases hk : snake.pickupsPending > 0
    · simp only [hk, if_true, hp, List.length_cons]; omega
    · simp only [hk, if_false, hp, List.length_cons, List.length_dropLast]; omega

theorem tickBody_spec (rand : Nat → Nat) (g : Game) (s1 : Snake) (head : SnakePart)
    (rest : List SnakePart) (b : Bool)
    (hadv : advanceSnakePosition g.snake = some s1) (hp : s1.parts = head :: rest)
    (hd : hasDeadlyCollisions s1 = some b) :
    tickBody rand g = some
      (if head.x = g.pickup.x ∧ head.y = g.pickup.y then
        { state := if b then GameState.lost else g.state
          pickup := updatePickupLocation (rand g.randCalls) (rand (g.randCalls + 1)) g.pickup
          snake := { s1 with pickupsPending := s1.pickupsPending + 1 }
          timeTillNextSnakeMove := s1.friction
          randCalls := g.randCalls + 2 }
      else
        { state := if b then GameState.lost else g.state
          pickup := g.pickup
          snake := s1
          timeTillNextSnakeMove := s1.friction
          randCalls := g.randCalls }) := by
  have hd' : hasDeadlyCollisions { s1 with pickupsPending := s1.pickupsPending + 1 } = some b := by
    rw [← hd]; rfl
  have hcol : isSnakeColidesWithPickup s1 g.pickup
      = some (decide (head.x = g.pickup.x ∧ head.y = g.pickup.y)) := by
    unfold isSnakeColidesWithPickup
    rw [hp]
  unfold tickBody
  rw [hadv]
  dsimp only
  rw [hcol]
  dsimp only
  by_cases hc : head.x = g.pickup.x ∧ head.y = g.pickup.y
  · rw [if_pos hc, if_pos (decide_eq_true hc)]
    unfold relocatePickup
    dsimp only
    rw [hd']
    cases b <;> rfl
  · rw [if_neg hc, if_neg (by simpa using hc)]
    rw [hd]
    cases b <;> rfl

/-- One tick on a body of at least two parts always returns; what it returns. -/
theorem tickBody_total (rand : Nat → Nat) (g : Game) (h2 : 2 ≤ g.snake.parts.length) :
    ∃ s1 b g', advanceSnakePosition g.snake = some s1 ∧
      hasDeadlyCollisions s1 = some b ∧
      tickBody rand g = some g' ∧
      g'.state = (if b then GameState.lost else g.state) ∧
      g'.snake.parts = s1.parts ∧
      g'.snake.friction = s1.friction ∧
      g'.timeTillNextSnakeMove = s1.friction ∧
      s1.friction =
        (if g.snake.pickupsPending > 0 then max 50 (g.snake.friction - 4)
          else g.snake.friction) ∧
      g.snake.parts.length ≤ s1.parts.length := by
  have hne : g.snake.parts ≠ [] := by
    intro h; rw [h] at h2; simp at h2
  obtain ⟨s1, hadv, hfr, hlen⟩ := advanceSnakePosition_friction g.snake hne
  have h2' : 2 ≤ s1.parts.length := le_trans h2 hlen
  match hp : s1.parts, h2' with
  | head :: second :: rest, _ =>
    obtain ⟨b, hb, _⟩ := hasDeadlyCollisions_cons_cons s1 head second rest hp
    have hspec := tickBody_spec rand g s1 head (second :: rest) b hadv hp hb
    refine ⟨s1, b, _, hadv, hb, hspec, ?_, ?_, ?_, ?_, hfr, ?_⟩
    · split <;> rfl
    · split <;> simp [hp]
    · split <;> rfl
    · split <;> rfl
    · exact hlen
  | [_], h => simp at h
  | [], h => simp at h

theorem runTicks_inv (rand : Nat → Nat) (g : Game) (h2 : 2 ≤ g.snake.parts.length)
    (hlo : 50 ≤ g.snake.friction) (hhi : g.snake.friction ≤ 250) :
    ∀ n, ∃ gn, runTicks rand n g = some gn ∧ 2 ≤ gn.snake.parts.length ∧
      50 ≤ gn.snake.friction ∧ gn.snake.friction ≤ 250
  | 0 => ⟨g, rfl, h2, hlo, hhi⟩
  | n + 1 => by
    obtain ⟨gn, hrun, hn2, hnlo, hnhi⟩ := runTicks_inv rand g h2 hlo hhi n
    obtain ⟨s1, b, g', _, _, htick, _, hparts, hfr, _, hs1, hlen⟩ := tickBody_total rand gn hn2
    refine ⟨g', by simp only [runTicks, hrun, htick], ?_, ?_, ?_⟩
    · rw [hparts]; omega
    · rw [hfr, hs1]; split <;> omega
    · rw [hfr, hs1]; split <;> omega

/-- C5: a call of `advanceSnakePosition` on a body with friction at least 50
returns friction `max 50 (friction - 4)` when a pickup is pending and the old
friction otherwise, so the result is at least 50 and at most the old value;
`resetSnake` sets friction 250; and along every run of consecutive ticks from a
snake with friction 250 the friction never rises and stays between 50 and
250. -/
theorem C5_friction_monotone_bounded :
    (∀ snake : Snake, snake.parts ≠ [] → 50 ≤ snake.friction →
      ∃ s', advanceSnakePosition snake = some s' ∧
        50 ≤ s'.friction ∧ s'.friction ≤ snake.friction ∧
        s'.friction =
          (if snake.pickupsPending > 0 then max 50 (snake.friction - 4)
            else snake.friction)) ∧
    (∀ snake : Snake, (resetSnake snake).friction = 250) ∧
    (∀ (rand : Nat → Nat) (g : Game), 2 ≤ g.snake.parts.length → g.snake.friction = 250 →
      ∀ n, ∃ gn gn1, runTicks rand n g = some gn ∧ runTicks rand (n + 1) g = some gn1 ∧
        50 ≤ gn1.snake.friction ∧ gn1.snake.friction ≤ gn.snake.friction ∧
        gn.snake.friction ≤ 250) := by
  refine ⟨?_, ?_, ?_⟩
  · intro snake hne hlo
    obtain ⟨s', hadv, hfr, _⟩ := advanceSnakePosition_friction snake hne
    refine ⟨s', hadv, ?_, ?_, hfr⟩
    · rw [hfr]; split <;> omega
    · rw [hfr]; split <;> omega
  · intro snake
    simp only [resetSnake, addSnakePart_eq, SNAKE_INITIAL_FRICTION]
  · intro rand g h2 hf n
    obtain ⟨gn, hrun, hn2, hnlo, hnhi⟩ := runTicks_inv rand g h2 (by omega) (by omega) n
    obtain ⟨s1, b, g', _, _, htick, _, _, hfr, _, hs1, _⟩ := tickBody_total rand gn hn2
    refine ⟨gn, g', hrun, by simp only [runTicks, hrun, htick], ?_, ?_, hnhi⟩
    · rw [hfr, hs1]; split <;> omega
    · rw [hfr, hs1]; split <;> omega

/-- C5 at the reset snake with one pickup pending: one call lowers the friction
from 250 to 246; three ticks of a game started on it keep it within bounds. -/
theorem C5_friction_monotone_bounded_witness :
    ({ resetSnake emptySnake with pickupsPending := 1 } : Snake).parts ≠ [] ∧
    50 ≤ ({ resetSnake emptySnake with pickupsPending := 1 } : Snake).friction ∧
    (advanceSnakePosition { resetSnake emptySnake with pickupsPending := 1 }).map
        (fun s => s.friction) = some 246 ∧
    (∃ s', advanceSnakePosition { resetSnake emptySnake with pickupsPending := 1 } = some s' ∧
        50 ≤ s'.friction ∧
        s'.friction ≤ ({ resetSnake emptySnake with pickupsPending := 1 } : Snake).friction ∧
        s'.friction =
          (if ({ resetSnake emptySnake with pickupsPending := 1 } : Snake).pickupsPending > 0
            then max 50
              (({ resetSnake emptySnake with pickupsPending := 1 } : Snake).friction - 4)
            else ({ resetSnake emptySnake with pickupsPending := 1 } : Snake).friction)) ∧
    2 ≤ (initGame sampleRand).snake.parts.length ∧
    (initGame sampleRand).snake.friction = 250 ∧
    (∃ gn gn1, runTicks sampleRand 3 (initGame sampleRand) = some gn ∧
        runTicks sampleRand (3 + 1) (initGame sampleRand) = some gn1 ∧
        50 ≤ gn1.snake.friction ∧ gn1.snake.friction ≤ gn.snake.friction ∧
        gn.snake.friction ≤ 250) :=
  ⟨by decide, by decide, by decide,
    C5_friction_monotone_bounded.1 { resetSnake emptySnake with pickupsPending := 1 }
      (by decide) (by decide),
    by decide, by decide,
    C5_friction_monotone_bounded.2.2 sampleRand (initGame sampleRand) (by decide) (by decide) 3⟩

/-! ## Lemmas on the frame loop -/

theorem resetSnake_eq (snake : Snake) :
    resetSnake snake =
      { parts := [⟨7, 3⟩, ⟨6, 3⟩, ⟨5, 3⟩, ⟨5, 4⟩]
        direction := Direction.right
        nextDirection := Direction.right
        length := 4
        friction := 250
        pickupsPending := 0 } := by
  simp only [resetSnake, addSnakePart_eq, createSnakePart, SNAKE_INITIAL_FRICTION,
    List.nil_append, List.cons_append]
  rfl

theorem subTimeDelta_of_range (t : Int) (timeDelta : Nat)
    (hlo : -2147483648 ≤ t - (timeDelta : Int)) (hhi : t - (timeDelta : Int) < 2147483648) :
    subTimeDelta t timeDelta = t - (timeDelta : Int) := by
  unfold subTimeDelta toInt32
  have h32 : (2 : Int) ^ 32 = 4294967296 := by norm_num
  have h31 : (2 : Int) ^ 31 = 2147483648 := by norm_num
  simp only [h32, h31]
  split <;> omega

theorem handleEvent_inv (rand : Nat → Nat) (g : Game) (e : Event) (hinv : GameInv g) :
    GameInv (handleEvent rand g e) ∧
      (handleEvent rand g e).timeTillNextSnakeMove = g.timeTillNextSnakeMove := by
  obtain ⟨h4, hlo, hhi, ht⟩ := hinv
  cases e with
  | other => exact ⟨⟨h4, hlo, hhi, ht⟩, rfl⟩
  | keyDown k =>
    cases k with
    | escape => exact ⟨⟨h4, hlo, hhi, ht⟩, rfl⟩
    | up => exact ⟨⟨h4, hlo, hhi, ht⟩, rfl⟩
    | down => exact ⟨⟨h4, hlo, hhi, ht⟩, rfl⟩
    | left => exact ⟨⟨h4, hlo, hhi, ht⟩, rfl⟩
    | right => exact ⟨⟨h4, hlo, hhi, ht⟩, rfl⟩
    | other => exact ⟨⟨h4, hlo, hhi, ht⟩, rfl⟩
    | space =>
      cases hs : g.state with
      | paused => simp only [handleEvent, hs]; exact ⟨⟨h4, hlo, hhi, ht⟩, trivial⟩
      | running => simp only [handleEvent, hs]; exact ⟨⟨h4, hlo, hhi, ht⟩, trivial⟩
      | quitRequested => simp only [handleEvent, hs]; exact ⟨⟨h4, hlo, hhi, ht⟩, trivial⟩
      | lost =>
        simp only [handleEvent, hs, relocatePickup, resetSnake_eq]
        refine ⟨⟨by simp, by simp, by simp, ht⟩, trivial⟩

theorem handleEvents_inv (rand : Nat → Nat) : ∀ (events : List Event) (g : Game), GameInv g →
    GameInv (handleEvents rand g events) ∧
      (handleEvents rand g events).timeTillNextSnakeMove = g.timeTillNextSnakeMove
  | [], g, hinv => ⟨hinv, rfl⟩
  | e :: events, g, hinv => by
    obtain ⟨h1, ht1⟩ := handleEvent_inv rand g e hinv
    obtain ⟨h2, ht2⟩ := handleEvents_inv rand events (handleEvent rand g e) h1
    refine ⟨h2, ?_⟩
    rw [← ht1, ← ht2]
    rfl

theorem frame_inv (rand : Nat → Nat) (g : Game) (events : List Event) (timeDelta : Nat)
    (hinv : GameInv g) :
    ∃ g', frame rand g events timeDelta = some g' ∧ GameInv g' := by
  obtain ⟨⟨h4, hlo, hhi, ht⟩, _⟩ := handleEvents_inv rand events g hinv
  unfold frame tickSection
  generalize handleEvents rand g events = g1 at h4 hlo hhi ht
  have hu : (updateTimer g1 timeDelta).snake = g1.snake := by
    unfold updateTimer; split <;> rfl
  by_cases hfire : (updateTimer g1 timeDelta).timeTillNextSnakeMove ≤ 0
  · rw [if_pos hfire]
    obtain ⟨s1, b, g', _, _, htick, _, hparts, hfr, htime, hs1, hlen⟩ :=
      tickBody_total rand (updateTimer g1 timeDelta) (by rw [hu]; omega)
    rw [hu] at hs1 hlen
    refine ⟨g', htick, ?_, ?_, ?_, ?_⟩
    · rw [hparts]; omega
    · rw [hfr, hs1]; split <;> omega
    · rw [hfr, hs1]; split <;> omega
    · rw [htime, hs1]; split <;> omega
  · rw [if_neg hfire]
    refine ⟨_, rfl, ?_, ?_, ?_, ?_⟩
    · rw [hu]; exact h4
    · rw [hu]; exact hlo
    · rw [hu]; exact hhi
    · omega

theorem initGame_inv (rand : Nat → Nat) : GameInv (initGame rand) := by
  unfold GameInv initGame
  simp only [resetSnake_eq, SNAKE_INITIAL_FRICTION]
  refine ⟨by simp, by simp, by simp, by simp⟩

theorem reachable_inv (rand : Nat → Nat) (g : Game) (hr : Reachable rand g) : GameInv g := by
  induction hr with
  | init => exact initGame_inv rand
  | step g g' events timeDelta _ _ hframe ih =>
    obtain ⟨g'', hf, hinv⟩ := frame_inv rand g events timeDelta ih
    rw [hf] at hframe
    cases hframe
    exact hinv

theorem handleEvents_other (rand : Nat → Nat) : ∀ (events : List Event) (g : Game),
    (∀ e ∈ events, e = Event.other) → handleEvents rand g events = g
  | [], _, _ => rfl
  | e :: events, g, h => by
    have he : e = Event.other := h e (List.mem_cons_self _ _)
    subst he
    exact handleEvents_other rand events g (fun e' he' => h e' (List.mem_cons_of_mem _ he'))

/-- C6 as stated fails: from game start (direction right) an Up key buffers
`nextDirection = top`; a following Left key, the reverse of the committed
direction, does not leave that buffer unchanged but sets `nextDirection`
back to right. -/
theorem C6_reverse_request_resets_buffer :
    (handleEvents sampleRand (initGame sampleRand)
        [Event.keyDown Key.up]).snake.direction = Direction.right ∧
    (handleEvents sampleRand (initGame sampleRand)
        [Event.keyDown Key.up]).snake.nextDirection = Direction.top ∧
    (handleEvents sampleRand (initGame sampleRand)
        [Event.keyDown Key.up, Event.keyDown Key.left]).snake.nextDirection
      = Direction.right := by
  decide

/-- C6, amended: for every game and every requested direction `r`, the arrow key
for `r` changes nothing but `nextDirection`, which becomes the committed
`direction` when `r` is its exact reverse (whatever was buffered), and `r`
otherwise. -/
theorem C6_direction_key_policy (rand : Nat → Nat) (g : Game) (r : Direction) :
    handleEvent rand g (Event.keyDown (directionKey r)) =
      { g with snake :=
          { g.snake with nextDirection :=
              if r = reverseDirection g.snake.direction then g.snake.direction else r } } := by
  cases r <;> cases hd : g.snake.direction <;>
    simp [handleEvent, handleDirectionKey, directionKey, reverseDirection, hd]

/-- C8: in a frame that starts Running, polls no key event, and whose timer
update gives a value `≤ 0`, the tick runs on a body of at least two parts and
the frame ends Lost when `hasDeadlyCollisions` is true of the body returned by
`advanceSnakePosition`, and Running otherwise. -/
theorem C8_tick_collision_outcome (rand : Nat → Nat) (g : Game) (events : List Event)
    (timeDelta : Nat)
    (hrun : g.state = GameState.running)
    (hev : ∀ e ∈ events, e = Event.other)
    (h2 : 2 ≤ g.snake.parts.length)
    (hfire : subTimeDelta g.timeTillNextSnakeMove timeDelta ≤ 0) :
    ∃ s1 b g',
      advanceSnakePosition g.snake = some s1 ∧
      hasDeadlyCollisions s1 = some b ∧
      frame rand g events timeDelta = some g' ∧
      g'.snake.parts = s1.parts ∧
      g'.state = (if b then GameState.lost else GameState.running) := by
  have hu : updateTimer g timeDelta
      = { g with timeTillNextSnakeMove := subTimeDelta g.timeTillNextSnakeMove timeDelta } := by
    unfold updateTimer
    rw [if_pos]
    rw [hrun]
    exact ⟨by decide, by decide⟩
  obtain ⟨s1, b, g', hadv, hb, htick, hstate, hparts, _⟩ :=
    tickBody_total rand
      { g with timeTillNextSnakeMove := subTimeDelta g.timeTillNextSnakeMove timeDelta } h2
  refine ⟨s1, b, g', hadv, hb, ?_, hparts, ?_⟩
  · unfold frame tickSection
    rw [handleEvents_other rand events g hev, hu, if_pos hfire]
    exact htick
  · rw [hstate]
    exact congrArg (fun s => if b = true then GameState.lost else s) hrun

/-- C8 at a running game with head (33,3) heading right and an expired timer:
the frame ends with the head at (34,3) and state Lost. -/
theorem C8_tick_collision_outcome_witness :
    nearWallGame.state = GameState.running ∧
    (∀ e ∈ ([] : List Event), e = Event.other) ∧
    2 ≤ nearWallGame.snake.parts.length ∧
    subTimeDelta nearWallGame.timeTillNextSnakeMove 250 ≤ 0 ∧
    (frame sampleRand nearWallGame [] 250).map (fun g => (g.state, g.snake.parts.head?))
      = some (GameState.lost, some ⟨34, 3⟩) ∧
    ∃ s1 b g',
      advanceSnakePosition nearWallGame.snake = some s1 ∧
      hasDeadlyCollisions s1 = some b ∧
      frame sampleRand nearWallGame [] 250 = some g' ∧
      g'.snake.parts = s1.parts ∧
      g'.state = (if b then GameState.lost else GameState.running) :=
  ⟨by decide, by simp, by decide, by decide, by decide,
    C8_tick_collision_outcome sampleRand nearWallGame [] 250 (by decide) (by simp)
      (by decide) (by decide)⟩

/-- C9 at a state reached from game start: after the frames that bring the
running snake's head to (33,3), a frame that polls Escape and whose timer
expires moves the head onto the wall and ends in state Lost, not
QuitRequested; the loop condition then lets the next frame run. -/
theorem C9_escape_frame_ends_lost :
    (runFrames sampleRand (initGame sampleRand) framesToWall).map
        (fun g => (g.state, g.snake.parts.head?))
      = some (GameState.running, some ⟨33, 3⟩) ∧
    (runFrames sampleRand (initGame sampleRand)
        (framesToWall ++ [([Event.keyDown Key.escape], 250)])).map (fun g => g.state)
      = some GameState.lost ∧
    (frame sampleRand nearWallGame [Event.keyDown Key.escape] 250).map (fun g => g.state)
      = some GameState.lost := by
  decide!

/-- C10: in every frame from a state reachable from game start, whatever the
key events and the elapsed time, if the state after input processing is Paused
or Lost then the timer is positive and the frame returns the game exactly as
input processing left it: timer unchanged, snake, pickup and state untouched by
the tick section, `advanceSnakePosition` not called. -/
theorem C10_no_tick_while_paused_or_lost (rand : Nat → Nat) (g : Game)
    (hr : Reachable rand g) (events : List Event) (timeDelta : Nat)
    (hs : (handleEvents rand g events).state = GameState.paused
      ∨ (handleEvents rand g events).state = GameState.lost) :
    0 < g.timeTillNextSnakeMove ∧
    (handleEvents rand g events).timeTillNextSnakeMove = g.timeTillNextSnakeMove ∧
    updateTimer (handleEvents rand g events) timeDelta = handleEvents rand g events ∧
    tickSection rand (handleEvents rand g events) = some (handleEvents rand g events) ∧
    frame rand g events timeDelta = some (handleEvents rand g events) := by
  have hinv := reachable_inv rand g hr
  obtain ⟨_, ht⟩ := handleEvents_inv rand events g hinv
  have hpos : 0 < g.timeTillNextSnakeMove := hinv.2.2.2
  have hu : updateTimer (handleEvents rand g events) timeDelta = handleEvents rand g events := by
    unfold updateTimer
    rw [if_neg]
    rintro ⟨h1, h2⟩
    rcases hs with h | h
    · exact h2 h
    · exact h1 h
  have htk : tickSection rand (handleEvents rand g events)
      = some (handleEvents rand g events) := by
    unfold tickSection
    rw [if_neg]
    rw [ht]
    omega
  refine ⟨hpos, ht, hu, htk, ?_⟩
  unfold frame
  rw [hu, htk]

/-- C10 at game start with no input: the state is Paused and the frame changes
nothing, however long it lasted. -/
theorem C10_no_tick_while_paused_or_lost_witness :
    ((handleEvents sampleRand (initGame sampleRand) []).state = GameState.paused
      ∨ (handleEvents sampleRand (initGame sampleRand) []).state = GameState.lost) ∧
    (0 < (initGame sampleRand).timeTillNextSnakeMove ∧
    (handleEvents sampleRand (initGame sampleRand) []).timeTillNextSnakeMove
      = (initGame sampleRand).timeTillNextSnakeMove ∧
    updateTimer (handleEvents sampleRand (initGame sampleRand) []) 100000
      = handleEvents sampleRand (initGame sampleRand) [] ∧
    tickSection sampleRand (handleEvents sampleRand (initGame sampleRand) [])
      = some (handleEvents sampleRand (initGame sampleRand) []) ∧
    frame sampleRand (initGame sampleRand) [] 100000
      = some (handleEvents sampleRand (initGame sampleRand) [])) :=
  ⟨Or.inl (by decide),
    C10_no_tick_while_paused_or_lost sampleRand (initGame sampleRand) Reachable.init []
      100000 (Or.inl (by decide))⟩

/-! ## Lemmas for the invariants of the frame loop -/

theorem advanceSnakePosition_facts (snake : Snake) (head : SnakePart) (rest : List SnakePart)
    (hp : snake.parts = head :: rest) :
    ∃ s1, advanceSnakePosition snake = some s1 ∧
      s1.parts = stepCell snake.nextDirection head ::
        (if snake.pickupsPending > 0 then head :: rest else (head :: rest).dropLast) ∧
      s1.direction = snake.nextDirection ∧
      s1.nextDirection = snake.nextDirection ∧
      s1.pickupsPending =
        (if snake.pickupsPending > 0 then snake.pickupsPending - 1
          else snake.pickupsPending) := by
  refine ⟨_, advanceSnakePosition_cons snake head rest hp, ?_, ?_, ?_, ?_⟩ <;>
    by_cases hk : snake.pickupsPending > 0 <;> simp only [hk, if_true, if_false]

/-- What one tick does to a body of at least two parts: the chain, the result
of the collision check, and the fields of the game after the tick. -/
theorem tickBody_facts (rand : Nat → Nat) (g : Game) (head second : SnakePart)
    (rest : List SnakePart) (hp : g.snake.parts = head :: second :: rest) :
    ∃ s1 bodyTail b g',
      advanceSnakePosition g.snake = some s1 ∧
      bodyTail = (if g.snake.pickupsPending > 0 then second :: rest
        else (second :: rest).dropLast) ∧
      s1.parts = stepCell g.snake.nextDirection head :: head :: bodyTail ∧
      s1.pickupsPending =
        (if g.snake.pickupsPending > 0 then g.snake.pickupsPending - 1
          else g.snake.pickupsPending) ∧
      isSnakeColidesWithPickup s1 g.pickup
        = some (decide ((stepCell g.snake.nextDirection head).x = g.pickup.x
            ∧ (stepCell g.snake.nextDirection head).y = g.pickup.y)) ∧
      hasDeadlyCollisions s1 = some b ∧
      (b = true ↔
        (onWall (stepCell g.snake.nextDirection head)
          ∨ ∃ p ∈ head :: bodyTail, p.x = (stepCell g.snake.nextDirection head).x
              ∧ p.y = (stepCell g.snake.nextDirection head).y)) ∧
      tickBody rand g = some g' ∧
      g'.state = (if b then GameState.lost else g.state) ∧
      g'.snake.parts = s1.parts ∧
      g'.snake.direction = g.snake.nextDirection ∧
      g'.snake.nextDirection = g.snake.nextDirection ∧
      g'.snake.pickupsPending =
        (if (stepCell g.snake.nextDirection head).x = g.pickup.x
            ∧ (stepCell g.snake.nextDirection head).y = g.pickup.y
          then s1.pickupsPending + 1 else s1.pickupsPending) ∧
      g'.pickup =
        (if (stepCell g.snake.nextDirection head).x = g.pickup.x
            ∧ (stepCell g.snake.nextDirection head).y = g.pickup.y
          then updatePickupLocation (rand g.randCalls) (rand (g.randCalls + 1)) g.pickup
          else g.pickup) := by
  obtain ⟨s1, hadv, hparts, hdir, hnext, hpend⟩ :=
    advanceSnakePosition_facts g.snake head (second :: rest) hp
  have hbody : (if g.snake.pickupsPending > 0 then head :: second :: rest
        else (head :: second :: rest).dropLast)
      = head :: (if g.snake.pickupsPending > 0 then second :: rest
        else (second :: rest).dropLast) := by
    split
    · rfl
    · exact List.dropLast_cons₂
  rw [hbody] at hparts
  obtain ⟨b, hb, hiff⟩ := hasDeadlyCollisions_cons_cons s1 _ _ _ hparts
  have hspec := tickBody_spec rand g s1 _ _ b hadv hparts hb
  have hcol : isSnakeColidesWithPickup s1 g.pickup
      = some (decide ((stepCell g.snake.nextDirection head).x = g.pickup.x
          ∧ (stepCell g.snake.nextDirection head).y = g.pickup.y)) := by
    unfold isSnakeColidesWithPickup
    rw [hparts]
  refine ⟨s1, _, b, _, hadv, rfl, hparts, hpend, hcol, hb, ?_, hspec, ?_, ?_, ?_, ?_, ?_, ?_⟩
  · rw [hiff]
    unfold onWall
    simp only [or_assoc]
  · split <;> rfl
  · split <;> rfl
  · split <;> exact hdir
  · split <;> exact hnext
  · split <;> rfl
  · split <;> rfl

theorem handleEvents_preserves (rand : Nat → Nat) (P : Game → Prop)
    (hevent : ∀ g e, GameInv g → P g → P (handleEvent rand g e)) :
    ∀ (events : List Event) (g : Game), GameInv g → P g → P (handleEvents rand g events)
  | [], _, _, hP => hP
  | e :: events, g, hinv, hP =>
    handleEvents_preserves rand P hevent events (handleEvent rand g e)
      (handleEvent_inv rand g e hinv).1 (hevent g e hinv hP)

/-- Induction over the frames of `main` for a property that does not depend on
the timer: it holds at game start and is kept by every polled event and every
tick, so it holds in every reachable state. -/
theorem reachable_induction (rand : Nat → Nat) (P : Game → Prop)
    (hinit : P (initGame rand))
    (hevent : ∀ g e, GameInv g → P g → P (handleEvent rand g e))
    (htimer : ∀ g t, P g → P { g with timeTillNextSnakeMove := t })
    (htick : ∀ g g', 4 ≤ g.snake.parts.length → P g → tickBody rand g = some g' → P g') :
    ∀ g, Reachable rand g → P g := by
  intro g hr
  induction hr with
  | init => exact hinit
  | step g g' events timeDelta hreach _ hframe ih =>
    have hinv := reachable_inv rand g hreach
    have h1 := handleEvents_preserves rand P hevent events g hinv ih
    have hinv1 := (handleEvents_inv rand events g hinv).1
    have h2 : P (updateTimer (handleEvents rand g events) timeDelta) := by
      unfold updateTimer
      split
      · exact htimer _ _ h1
      · exact h1
    have hlen : 4 ≤ (updateTimer (handleEvents rand g events) timeDelta).snake.parts.length := by
      unfold updateTimer
      split
      · exact hinv1.1
      · exact hinv1.1
    unfold frame tickSection at hframe
    split at hframe
    · exact htick _ _ hlen h2 hframe
    · cases hframe
      exact h2

theorem updatePickupLocation_eq (r1 r2 : Nat) (pickup : Pickup) :
    updatePickupLocation r1 r2 pickup
      = { x := ((r1 % 33 + 1 : Nat) : Int), y := ((r2 % 33 + 1 : Nat) : Int) } := by
  have hmax : ((WINDOW_WIDTH - TILE_SIZE * 2) / TILE_SIZE).toNat = 33 := by decide
  have hmay : ((WINDOW_HEIGHT - TILE_SIZE * 2) / TILE_SIZE).toNat = 33 := by decide
  unfold updatePickupLocation
  simp only [hmax, hmay]

/-! ## Claims on the key handler, the pickup and the reset -/

/-- C11: a Space key turns Paused into Running and Running into Paused and
changes nothing else (snake and pickup stay as they are); from Lost it resets
the snake to the parts (7,3),(6,3),(5,3),(5,4), `length` 4, friction 250,
direction and nextDirection right, no pickup pending, relocates the pickup with
the next two `rand()` results, and sets the state Running. -/
theorem C11_space_transitions (rand : Nat → Nat) (g : Game) :
    (g.state = GameState.paused →
      handleEvent rand g (Event.keyDown Key.space) = { g with state := GameState.running }) ∧
    (g.state = GameState.running →
      handleEvent rand g (Event.keyDown Key.space) = { g with state := GameState.paused }) ∧
    (g.state = GameState.lost →
      (handleEvent rand g (Event.keyDown Key.space)).state = GameState.running ∧
      (handleEvent rand g (Event.keyDown Key.space)).snake =
        { parts := [⟨7, 3⟩, ⟨6, 3⟩, ⟨5, 3⟩, ⟨5, 4⟩]
          direction := Direction.right
          nextDirection := Direction.right
          length := 4
          friction := 250
          pickupsPending := 0 } ∧
      (handleEvent rand g (Event.keyDown Key.space)).pickup =
        updatePickupLocation (rand g.randCalls) (rand (g.randCalls + 1)) g.pickup ∧
      (handleEvent rand g (Event.keyDown Key.space)).randCalls = g.randCalls + 2 ∧
      (handleEvent rand g (Event.keyDown Key.space)).timeTillNextSnakeMove
        = g.timeTillNextSnakeMove) := by
  refine ⟨?_, ?_, ?_⟩
  · intro hs
    simp only [handleEvent, hs]
  · intro hs
    simp only [handleEvent, hs]
  · intro hs
    simp only [handleEvent, hs, relocatePickup, resetSnake_eq]
    exact ⟨trivial, trivial, trivial, trivial, trivial⟩

/-- C11 at three sample games: the paused game at start, a running game, and a
lost game whose pickup moves from (20,20) to (3,3). -/
theorem C11_space_transitions_witness :
    (initGame sampleRand).state = GameState.paused ∧
    handleEvent sampleRand (initGame sampleRand) (Event.keyDown Key.space)
      = { initGame sampleRand with state := GameState.running } ∧
    nearWallGame.state = GameState.running ∧
    handleEvent sampleRand nearWallGame (Event.keyDown Key.space)
      = { nearWallGame with state := GameState.paused } ∧
    lostGame.state = GameState.lost ∧
    ((handleEvent sampleRand lostGame (Event.keyDown Key.space)).state = GameState.running ∧
      (handleEvent sampleRand lostGame (Event.keyDown Key.space)).snake =
        { parts := [⟨7, 3⟩, ⟨6, 3⟩, ⟨5, 3⟩, ⟨5, 4⟩]
          direction := Direction.right
          nextDirection := Direction.right
          length := 4
          friction := 250
          pickupsPending := 0 } ∧
      (handleEvent sampleRand lostGame (Event.keyDown Key.space)).pickup =
        updatePickupLocation (sampleRand lostGame.randCalls)
          (sampleRand (lostGame.randCalls + 1)) lostGame.pickup ∧
      (handleEvent sampleRand lostGame (Event.keyDown Key.space)).randCalls
        = lostGame.randCalls + 2 ∧
      (handleEvent sampleRand lostGame (Event.keyDown Key.space)).timeTillNextSnakeMove
        = lostGame.timeTillNextSnakeMove) ∧
    (handleEvent sampleRand lostGame (Event.keyDown Key.space)).pickup = ⟨3, 3⟩ :=
  ⟨by decide,
    (C11_space_transitions sampleRand (initGame sampleRand)).1 (by decide),
    by decide,
    (C11_space_transitions sampleRand nearWallGame).2.1 (by decide),
    by decide,
    (C11_space_transitions sampleRand lostGame).2.2 (by decide),
    by decide⟩

/-- C14: for all results `r1`, `r2` of the two `rand()` calls,
`updatePickupLocation` sets `x = r1 mod 33 + 1` and `y = r2 mod 33 + 1`, so
both lie between 1 and 33 (never on a wall cell of the 35 x 35 grid), and every
cell of `[1,33] x [1,33]` is produced by some pair of results below 33. -/
theorem C14_pickup_location_range (r1 r2 : Nat) (pickup : Pickup) :
    (updatePickupLocation r1 r2 pickup).x = ((r1 % 33 + 1 : Nat) : Int) ∧
    (updatePickupLocation r1 r2 pickup).y = ((r2 % 33 + 1 : Nat) : Int) ∧
    1 ≤ (updatePickupLocation r1 r2 pickup).x ∧ (updatePickupLocation r1 r2 pickup).x ≤ 33 ∧
    1 ≤ (updatePickupLocation r1 r2 pickup).y ∧ (updatePickupLocation r1 r2 pickup).y ≤ 33 ∧
    (∀ x y : Int, 1 ≤ x → x ≤ 33 → 1 ≤ y → y ≤ 33 →
      ∃ q1 q2 : Nat, q1 < 33 ∧ q2 < 33 ∧
        updatePickupLocation q1 q2 pickup = { x := x, y := y }) := by
  rw [updatePickupLocation_eq]
  refine ⟨rfl, rfl, ?_, ?_, ?_, ?_, ?_⟩
  · show (1 : Int) ≤ ((r1 % 33 + 1 : Nat) : Int)
    omega
  · show ((r1 % 33 + 1 : Nat) : Int) ≤ 33
    omega
  · show (1 : Int) ≤ ((r2 % 33 + 1 : Nat) : Int)
    omega
  · show ((r2 % 33 + 1 : Nat) : Int) ≤ 33
    omega
  · intro x y hx1 hx2 hy1 hy2
    refine ⟨(x - 1).toNat, (y - 1).toNat, by omega, by omega, ?_⟩
    rw [updatePickupLocation_eq]
    have hx : (((x - 1).toNat % 33 + 1 : Nat) : Int) = x := by omega
    have hy : (((y - 1).toNat % 33 + 1 : Nat) : Int) = y := by omega
    rw [hx, hy]

/-- C14 at sample values: results 7 and 2 give the cell (8,3), results 32 and
65 give (33,33), and the corner cell (33,1) is produced by some results. -/
theorem C14_pickup_location_range_witness :
    updatePickupLocation 7 2 ⟨0, 0⟩ = ⟨8, 3⟩ ∧
    updatePickupLocation 32 65 ⟨0, 0⟩ = ⟨33, 33⟩ ∧
    (1 : Int) ≤ 33 ∧ (33 : Int) ≤ 33 ∧ (1 : Int) ≤ 1 ∧ (1 : Int) ≤ 33 ∧
    ∃ q1 q2 : Nat, q1 < 33 ∧ q2 < 33 ∧
      updatePickupLocation q1 q2 ⟨0, 0⟩ = { x := 33, y := 1 } :=
  ⟨by decide, by decide, by decide, by decide, by decide, by decide,
    (C14_pickup_location_range 7 2 ⟨0, 0⟩).2.2.2.2.2.2 33 1
      (by decide) (by decide) (by decide) (by decide)⟩

/-- C15: `resetSnake` returns the same snake whatever snake it is given: parts
(7,3),(6,3),(5,3),(5,4) from head to tail, `length` 4, friction 250, direction
and nextDirection right, no pickup pending; so resetting twice equals resetting
once. -/
theorem C15_reset_constant_idempotent (snake other : Snake) :
    resetSnake snake =
      { parts := [⟨7, 3⟩, ⟨6, 3⟩, ⟨5, 3⟩, ⟨5, 4⟩]
        direction := Direction.right
        nextDirection := Direction.right
        length := 4
        friction := 250
        pickupsPending := 0 } ∧
    resetSnake snake = resetSnake other ∧
    resetSnake (resetSnake snake) = resetSnake snake := by
  refine ⟨resetSnake_eq snake, ?_, ?_⟩
  · rw [resetSnake_eq snake, resetSnake_eq other]
  · rw [resetSnake_eq (resetSnake snake), resetSnake_eq snake]

/-- C12 as stated fails: under `altRand` the fourth frame from game start ends
Running with head (8,4), the pickup at (8,3) under the body part (8,3); in the
fifth frame the tick fires, the head's cell after the advance is the pickup's
cell (8,3) and one pickup becomes pending, but the frame ends Lost, not
Running. -/
theorem C12_consumption_frame_can_end_lost :
    (runFrames altRand (initGame altRand) (uTurnFrames.take 4)).map
        (fun g => (g.state, g.pickup, g.snake.parts, g.snake.pickupsPending))
      = some (GameState.running, ⟨8, 3⟩, [⟨8, 4⟩, ⟨9, 4⟩, ⟨9, 3⟩, ⟨8, 3⟩, ⟨7, 3⟩], 0) ∧
    (runFrames altRand (initGame altRand) uTurnFrames).map
        (fun g => (g.state, g.snake.parts, g.snake.pickupsPending))
      = some (GameState.lost, [⟨8, 3⟩, ⟨8, 4⟩, ⟨9, 4⟩, ⟨9, 3⟩, ⟨8, 3⟩], 1) := by
  decide!

/-- C12, amended: in a frame whose state after input processing is Running, in
which the timer update gives a value `≤ 0` and the head's cell after
`advanceSnakePosition` equals the pickup's cell, `pickupsPending` ends one
above its value after the advance, the pickup is relocated with the next two
`rand()` results, and the frame ends Lost when `hasDeadlyCollisions` is true of
the advanced body and Running otherwise. -/
theorem C12_pickup_consumption (rand : Nat → Nat) (g : Game) (events : List Event)
    (timeDelta : Nat) (s1 : Snake)
    (hrun : (handleEvents rand g events).state = GameState.running)
    (h2 : 2 ≤ (handleEvents rand g events).snake.parts.length)
    (hfire : subTimeDelta (handleEvents rand g events).timeTillNextSnakeMove timeDelta ≤ 0)
    (hadv : advanceSnakePosition (handleEvents rand g events).snake = some s1)
    (heat : isSnakeColidesWithPickup s1 (handleEvents rand g events).pickup = some true) :
    ∃ b g',
      hasDeadlyCollisions s1 = some b ∧
      frame rand g events timeDelta = some g' ∧
      g'.snake.parts = s1.parts ∧
      g'.snake.pickupsPending = s1.pickupsPending + 1 ∧
      g'.pickup =
        updatePickupLocation (rand (handleEvents rand g events).randCalls)
          (rand ((handleEvents rand g events).randCalls + 1))
          (handleEvents rand g events).pickup ∧
      g'.state = (if b then GameState.lost else GameState.running) := by
  unfold frame tickSection
  generalize handleEvents rand g events = g1 at hrun h2 hfire hadv heat ⊢
  have hu : updateTimer g1 timeDelta
      = { g1 with timeTillNextSnakeMove := subTimeDelta g1.timeTillNextSnakeMove timeDelta } := by
    unfold updateTimer
    rw [if_pos]
    rw [hrun]
    exact ⟨by decide, by decide⟩
  rw [hu, if_pos hfire]
  match hp : g1.snake.parts, h2 with
  | head :: second :: rest, _ =>
    obtain ⟨s1', bodyTail, b, g', hadv', _, _, _, hcol, hb, _, htick, hstate, hgparts, _, _,
        hgpend, hgpick⟩ :=
      tickBody_facts rand
        { g1 with timeTillNextSnakeMove := subTimeDelta g1.timeTillNextSnakeMove timeDelta }
        head second rest hp
    dsimp only at hadv' hcol hgpend hgpick hstate
    rw [hadv] at hadv'
    cases hadv'
    rw [heat] at hcol
    have heats : (stepCell g1.snake.nextDirection head).x = g1.pickup.x
        ∧ (stepCell g1.snake.nextDirection head).y = g1.pickup.y := by
      have h := Option.some.inj hcol
      exact of_decide_eq_true h.symm
    refine ⟨b, g', hb, htick, hgparts, ?_, ?_, ?_⟩
    · rw [hgpend, if_pos heats]
    · rw [hgpick, if_pos heats]
    · rw [hstate, hrun]
  | [_], h => simp at h
  | [], h => simp at h

/-- C12 at a running game with head (7,3) heading right and the pickup at
(8,3): the frame ends Running with one pickup pending and the pickup moved to
(3,3). -/
theorem C12_pickup_consumption_witness :
    (handleEvents sampleRand aboutToEatGame []).state = GameState.running ∧
    2 ≤ (handleEvents sampleRand aboutToEatGame []).snake.parts.length ∧
    subTimeDelta (handleEvents sampleRand aboutToEatGame []).timeTillNextSnakeMove 250 ≤ 0 ∧
    (frame sampleRand aboutToEatGame [] 250).map
        (fun g => (g.state, g.pickup, g.snake.pickupsPending))
      = some (GameState.running, ⟨3, 3⟩, 1) ∧
    ∃ b g',
      hasDeadlyCollisions
        { parts := [⟨8, 3⟩, ⟨7, 3⟩, ⟨6, 3⟩, ⟨5, 3⟩]
          direction := Direction.right
          nextDirection := Direction.right
          length := 4
          friction := 250
          pickupsPending := 0 } = some b ∧
      frame sampleRand aboutToEatGame [] 250 = some g' ∧
      g'.snake.parts = [⟨8, 3⟩, ⟨7, 3⟩, ⟨6, 3⟩, ⟨5, 3⟩] ∧
      g'.snake.pickupsPending = 0 + 1 ∧
      g'.pickup =
        updatePickupLocation (sampleRand (handleEvents sampleRand aboutToEatGame []).randCalls)
          (sampleRand ((handleEvents sampleRand aboutToEatGame []).randCalls + 1))
          (handleEvents sampleRand aboutToEatGame []).pickup ∧
      g'.state = (if b then GameState.lost else GameState.running) :=
  ⟨by decide, by decide, by decide, by decide,
    C12_pickup_consumption sampleRand aboutToEatGame [] 250
      { parts := [⟨8, 3⟩, ⟨7, 3⟩, ⟨6, 3⟩, ⟨5, 3⟩]
        direction := Direction.right
        nextDirection := Direction.right
        length := 4
        friction := 250
        pickupsPending := 0 }
      (by decide) (by decide) (by decide) (by decide) (by decide)⟩

/-! ## Growth accounting -/

/-- One tick from a body of at least two parts with at most one pickup pending:
the chain grows by the number pending, and afterwards one pickup is pending
exactly when the tick consumed the pickup. -/
theorem tickBody_growth (rand : Nat → Nat) (g : Game) (h2 : 2 ≤ g.snake.parts.length)
    (hpend : g.snake.pickupsPending = 0 ∨ g.snake.pickupsPending = 1) :
    ∃ g', tickBody rand g = some g' ∧
      (g'.snake.parts.length : Int) = (g.snake.parts.length : Int) + g.snake.pickupsPending ∧
      g'.snake.pickupsPending = (if tickConsumes g then 1 else 0) := by
  match hp : g.snake.parts, h2 with
  | head :: second :: rest, _ =>
    obtain ⟨s1, bodyTail, b, g', hadv, hbody, hparts, hs1, hcol, _, _, htick, _, hgparts, _, _,
        hgpend, _⟩ := tickBody_facts rand g head second rest hp
    have hzero : s1.pickupsPending = 0 := by
      rw [hs1]; split <;> omega
    have hcons : tickConsumes g
        = decide ((stepCell g.snake.nextDirection head).x = g.pickup.x
            ∧ (stepCell g.snake.nextDirection head).y = g.pickup.y) := by
      unfold tickConsumes
      rw [hadv]
      dsimp only
      rw [hcol]
      by_cases hc : (stepCell g.snake.nextDirection head).x = g.pickup.x
          ∧ (stepCell g.snake.nextDirection head).y = g.pickup.y
      · rw [decide_eq_true hc]
      · rw [decide_eq_false hc]
    refine ⟨g', htick, ?_, ?_⟩
    · rw [hgparts, hparts, hbody]
      rcases hpend with h0 | h1
      · rw [h0]
        simp only [gt_iff_lt, lt_self_iff_false, if_false, List.length_cons,
          List.length_dropLast]
        omega
      · rw [h1]
        simp only [gt_iff_lt, zero_lt_one, if_true, List.length_cons]
        omega
    · rw [hgpend, hzero, hcons]
      by_cases hc : (stepCell g.snake.nextDirection head).x = g.pickup.x
          ∧ (stepCell g.snake.nextDirection head).y = g.pickup.y
      · simp only [hc, and_self, if_true, decide_True]
        omega
      · simp only [hc, if_false, decide_False, Bool.false_eq_true]
  | [_], h => simp at h
  | [], h => simp at h

theorem reachable_pending (rand : Nat → Nat) (g : Game) (hr : Reachable rand g) :
    g.snake.pickupsPending = 0 ∨ g.snake.pickupsPending = 1 := by
  refine reachable_induction rand
    (fun g => g.snake.pickupsPending = 0 ∨ g.snake.pickupsPending = 1) ?_ ?_ ?_ ?_ g hr
  · left
    simp only [initGame, resetSnake_eq]
  · intro g e _ hP
    cases e with
    | other => exact hP
    | keyDown k =>
      cases k with
      | escape => exact hP
      | up => exact hP
      | down => exact hP
      | left => exact hP
      | right => exact hP
      | other => exact hP
      | space =>
        cases hs : g.state with
        | paused => simp only [handleEvent, hs]; exact hP
        | running => simp only [handleEvent, hs]; exact hP
        | quitRequested => simp only [handleEvent, hs]; exact hP
        | lost =>
          simp only [handleEvent, hs, relocatePickup, resetSnake_eq]
          left; trivial
  · intro g t hP
    exact hP
  · intro g g' h4 hP htick
    obtain ⟨g'', htick', _, hpend⟩ := tickBody_growth rand g (by omega) hP
    rw [htick] at htick'
    cases htick'
    rw [hpend]
    split
    · exact Or.inr rfl
    · exact Or.inl rfl

theorem handleEvent_noReset (rand : Nat → Nat) (g : Game) (e : Event)
    (h : ¬ (e = Event.keyDown Key.space ∧ g.state = GameState.lost)) :
    (handleEvent rand g e).snake.parts = g.snake.parts ∧
      (handleEvent rand g e).snake.pickupsPending = g.snake.pickupsPending := by
  cases e with
  | other => exact ⟨rfl, rfl⟩
  | keyDown k =>
    cases k with
    | escape => exact ⟨rfl, rfl⟩
    | up => exact ⟨rfl, rfl⟩
    | down => exact ⟨rfl, rfl⟩
    | left => exact ⟨rfl, rfl⟩
    | right => exact ⟨rfl, rfl⟩
    | other => exact ⟨rfl, rfl⟩
    | space =>
      cases hs : g.state with
      | lost => exact absurd ⟨rfl, hs⟩ h
      | paused => simp only [handleEvent, hs, and_self]
      | running => simp only [handleEvent, hs, and_self]
      | quitRequested => simp only [handleEvent, hs, and_self]

theorem handleEvents_noReset (rand : Nat → Nat) : ∀ (events : List Event) (g : Game),
    eventsReset rand g events = false →
    (handleEvents rand g events).snake.parts = g.snake.parts ∧
      (handleEvents rand g events).snake.pickupsPending = g.snake.pickupsPending
  | [], _, _ => ⟨rfl, rfl⟩
  | e :: events, g, h => by
    simp only [eventsReset, Bool.or_eq_false_iff, decide_eq_false_iff_not] at h
    obtain ⟨h1, h2⟩ := handleEvent_noReset rand g e h.1
    obtain ⟨h3, h4⟩ := handleEvents_noReset rand events (handleEvent rand g e) h.2
    exact ⟨h3.trans h1, h4.trans h2⟩

/-- One frame without a reset, from a body of at least two parts with at most
one pickup pending: the frame returns, and the number of parts plus the number
pending grows by one exactly when the frame consumes the pickup. -/
theorem frame_growth (rand : Nat → Nat) (g : Game) (events : List Event) (timeDelta : Nat)
    (h2 : 2 ≤ g.snake.parts.length)
    (hpend : g.snake.pickupsPending = 0 ∨ g.snake.pickupsPending = 1)
    (hno : eventsReset rand g events = false) :
    ∃ g', frame rand g events timeDelta = some g' ∧
      (g'.snake.pickupsPending = 0 ∨ g'.snake.pickupsPending = 1) ∧
      2 ≤ g'.snake.parts.length ∧
      (g'.snake.parts.length : Int) + g'.snake.pickupsPending
        = (g.snake.parts.length : Int) + g.snake.pickupsPending
          + (if frameConsumes rand g events timeDelta then 1 else 0) := by
  obtain ⟨hparts, hp⟩ := handleEvents_noReset rand events g hno
  unfold frame tickSection frameConsumes
  generalize handleEvents rand g events = g1 at hparts hp ⊢
  have hsn : (updateTimer g1 timeDelta).snake = g1.snake := by
    unfold updateTimer; split <;> rfl
  generalize updateTimer g1 timeDelta = g2 at hsn ⊢
  have h2' : 2 ≤ g2.snake.parts.length := by rw [hsn, hparts]; exact h2
  have hpend' : g2.snake.pickupsPending = 0 ∨ g2.snake.pickupsPending = 1 := by
    rw [hsn, hp]; exact hpend
  have hlen2 : g2.snake.parts.length = g.snake.parts.length := by rw [hsn, hparts]
  have hp2 : g2.snake.pickupsPending = g.snake.pickupsPending := by rw [hsn, hp]
  by_cases hfire : g2.timeTillNextSnakeMove ≤ 0
  · rw [if_pos hfire]
    obtain ⟨g', htick, hlen, hnew⟩ := tickBody_growth rand g2 h2' hpend'
    refine ⟨g', htick, ?_, ?_, ?_⟩
    · rw [hnew]; split
      · exact Or.inr rfl
      · exact Or.inl rfl
    · rcases hpend' with h | h <;> omega
    · rw [hlen, hnew, ← hlen2, ← hp2]
      simp only [hfire, decide_True, Bool.true_and]
  · rw [if_neg hfire]
    refine ⟨g2, rfl, hpend', h2', ?_⟩
    simp only [hfire, decide_False, Bool.false_and, Bool.false_eq_true, if_false, hlen2, hp2]
    omega

/-- A run of frames without a reset, from a body of at least two parts with at
most one pickup pending: the run returns, and the number of parts plus the
number pending has grown by the number of consumptions. -/
theorem runFrames_growth (rand : Nat → Nat) : ∀ (frames : List (List Event × Nat)) (g : Game),
    2 ≤ g.snake.parts.length →
    (g.snake.pickupsPending = 0 ∨ g.snake.pickupsPending = 1) →
    framesReset rand g frames = false →
    ∃ gn, runFrames rand g frames = some gn ∧
      (gn.snake.pickupsPending = 0 ∨ gn.snake.pickupsPending = 1) ∧
      (gn.snake.parts.length : Int) + gn.snake.pickupsPending
        = (g.snake.parts.length : Int) + g.snake.pickupsPending
          + (consumptionsIn rand g frames : Int)
  | [], g, _, hpend, _ => by
    refine ⟨g, rfl, hpend, ?_⟩
    simp only [consumptionsIn, Nat.cast_zero]
    omega
  | (events, timeDelta) :: more, g, h2, hpend, hno => by
    by_cases hq : g.state = GameState.quitRequested
    · refine ⟨g, by simp only [runFrames, hq, if_true], hpend, ?_⟩
      simp only [consumptionsIn, hq, if_true, Nat.cast_zero]
      omega
    · simp only [framesReset, hq, if_false, Bool.or_eq_false_iff] at hno
      obtain ⟨g', hf, hp', h2', hlen⟩ := frame_growth rand g events timeDelta h2 hpend hno.1
      have hno2 := hno.2
      rw [hf] at hno2
      obtain ⟨gn, hrun, hpn, hlenn⟩ := runFrames_growth rand more g' h2' hp' hno2
      refine ⟨gn, ?_, hpn, ?_⟩
      · simp only [runFrames, hq, if_false, hf]
        exact hrun
      · simp only [consumptionsIn, hq, if_false, hf, Nat.cast_add]
        rw [hlenn, hlen]
        split
        · simp only [Nat.cast_one]; omega
        · simp only [Nat.cast_zero]; omega

/-- C13: at every frame boundary reachable from game start `pickupsPending` is
0 or 1; along every run of frames that starts from a freshly reset snake and
has no further reset, whatever the key events (turns included) and elapsed
times, `pickupsPending` stays 0 or 1 and the number of parts equals 4 plus the
number of pickup consumptions so far minus `pickupsPending`; and for every body
and direction a tick adds exactly `pickupsPending` parts and leaves one pickup
pending exactly when it consumed the pickup. -/
theorem C13_growth_conserved :
    (∀ (rand : Nat → Nat) (g : Game), Reachable rand g →
      g.snake.pickupsPending = 0 ∨ g.snake.pickupsPending = 1) ∧
    (∀ (rand : Nat → Nat) (g : Game) (s0 : Snake) (frames : List (List Event × Nat)),
      g.snake = resetSnake s0 → framesReset rand g frames = false →
      ∃ gn, runFrames rand g frames = some gn ∧
        (gn.snake.pickupsPending = 0 ∨ gn.snake.pickupsPending = 1) ∧
        (gn.snake.parts.length : Int)
          = 4 + (consumptionsIn rand g frames : Int) - gn.snake.pickupsPending) ∧
    (∀ (rand : Nat → Nat) (g : Game), 2 ≤ g.snake.parts.length →
      (g.snake.pickupsPending = 0 ∨ g.snake.pickupsPending = 1) →
      ∃ g', tickBody rand g = some g' ∧
        (g'.snake.parts.length : Int)
          = (g.snake.parts.length : Int) + g.snake.pickupsPending ∧
        g'.snake.pickupsPending = (if tickConsumes g then 1 else 0)) := by
  refine ⟨reachable_pending, ?_, tickBody_growth⟩
  intro rand g s0 frames hreset hno
  have h4 : g.snake.parts.length = 4 := by rw [hreset, resetSnake_eq]; rfl
  have h0 : g.snake.pickupsPending = 0 := by rw [hreset, resetSnake_eq]
  obtain ⟨gn, hrun, hpend, hlen⟩ :=
    runFrames_growth rand frames g (by omega) (Or.inl h0) hno
  refine ⟨gn, hrun, hpend, ?_⟩
  rw [h4, h0] at hlen
  push_cast at hlen
  omega

/-- C13 at sample inputs: the start state has nothing pending; the run of
`uTurnFrames` under `altRand` (turns down, left and up, no reset) consumes two
pickups and ends with 5 parts and one pickup pending; and one tick of a
five-part snake heading down with one pickup pending gives 6 parts. -/
theorem C13_growth_conserved_witness :
    Reachable altRand (initGame altRand) ∧
    ((initGame altRand).snake.pickupsPending = 0
      ∨ (initGame altRand).snake.pickupsPending = 1) ∧
    (initGame altRand).snake = resetSnake emptySnake ∧
    framesReset altRand (initGame altRand) uTurnFrames = false ∧
    consumptionsIn altRand (initGame altRand) uTurnFrames = 2 ∧
    (runFrames altRand (initGame altRand) uTurnFrames).map
        (fun g => (g.snake.parts.length, g.snake.pickupsPending)) = some (5, 1) ∧
    (∃ gn, runFrames altRand (initGame altRand) uTurnFrames = some gn ∧
        (gn.snake.pickupsPending = 0 ∨ gn.snake.pickupsPending = 1) ∧
        (gn.snake.parts.length : Int)
          = 4 + (consumptionsIn altRand (initGame altRand) uTurnFrames : Int)
            - gn.snake.pickupsPending) ∧
    2 ≤ turnedGame.snake.parts.length ∧
    (turnedGame.snake.pickupsPending = 0 ∨ turnedGame.snake.pickupsPending = 1) ∧
    (tickBody altRand turnedGame).map
        (fun g => (g.snake.parts, g.snake.pickupsPending))
      = some ([⟨9, 5⟩, ⟨9, 4⟩, ⟨9, 3⟩, ⟨8, 3⟩, ⟨7, 3⟩, ⟨6, 3⟩], 0) ∧
    (∃ g', tickBody altRand turnedGame = some g' ∧
        (g'.snake.parts.length : Int)
          = (turnedGame.snake.parts.length : Int) + turnedGame.snake.pickupsPending ∧
        g'.snake.pickupsPending = (if tickConsumes turnedGame then 1 else 0)) :=
  ⟨Reachable.init,
    C13_growth_conserved.1 altRand (initGame altRand) Reachable.init,
    by decide, by decide!, by decide!, by decide!,
    C13_growth_conserved.2.1 altRand (initGame altRand) emptySnake uTurnFrames
      (by decide) (by decide!),
    by decide, Or.inr (by decide), by decide!,
    C13_growth_conserved.2.2 altRand turnedGame (by decide) (Or.inr (by decide))⟩

/-! ## Cells on the grid and distinct cells -/

theorem runFrames_reachable (rand : Nat → Nat) : ∀ (frames : List (List Event × Nat))
    (g g' : Game), Reachable rand g → runFrames rand g frames = some g' → Reachable rand g'
  | [], g, g', hr, h => by
    simp only [runFrames] at h
    cases h
    exact hr
  | (events, timeDelta) :: more, g, g', hr, h => by
    simp only [runFrames] at h
    split at h
    · cases h
      exact hr
    · rename_i hq
      cases hf : frame rand g events timeDelta with
      | none => rw [hf] at h; cases h
      | some g1 =>
        rw [hf] at h
        exact runFrames_reachable rand more g1 g'
          (Reachable.step g g1 events timeDelta hr hq hf) h

/-- C16 at a state reached from game start: after the tick onto the right wall
at (34,3) the game is Lost; four more frames that poll Escape with an expired
timer (the first also Up) each run a tick, and the last leaves the head at
(34,-1), outside the grid rows 0 to 34, in state Lost with the loop still
running. -/
theorem C16_head_leaves_grid :
    ∃ g, Reachable sampleRand g ∧
      runFrames sampleRand (initGame sampleRand) offGridFrames = some g ∧
      g.state = GameState.lost ∧
      g.snake.parts.head? = some ⟨34, -1⟩ ∧
      ¬ (∀ p ∈ g.snake.parts, 0 ≤ p.x ∧ p.x < 35 ∧ 0 ≤ p.y ∧ p.y < 35) := by
  have hsome : (runFrames sampleRand (initGame sampleRand) offGridFrames).isSome = true := by
    decide!
  obtain ⟨g, hg⟩ := Option.isSome_iff_exists.1 hsome
  have hfacts : (runFrames sampleRand (initGame sampleRand) offGridFrames).map
      (fun g => (g.state, g.snake.parts.head?)) = some (GameState.lost, some ⟨34, -1⟩) := by
    decide!
  rw [hg] at hfacts
  simp only [Option.map_some', Option.some.injEq, Prod.mk.injEq] at hfacts
  refine ⟨g, runFrames_reachable sampleRand _ _ _ Reachable.init hg, hg, hfacts.1, hfacts.2, ?_⟩
  intro hall
  cases hparts : g.snake.parts with
  | nil => rw [hparts] at hfacts; simp at hfacts
  | cons head rest =>
    have hhead : head = ⟨34, -1⟩ := by
      have h := hfacts.2
      rw [hparts] at h
      simpa using h
    have hb := hall head (by rw [hparts]; exact List.mem_cons_self _ _)
    rw [hhead] at hb
    dsimp only at hb
    omega

theorem handleEvent_state_parts (rand : Nat → Nat) (g : Game) (e : Event) :
    ((handleEvent rand g e).state = g.state ∧
        (handleEvent rand g e).snake.parts = g.snake.parts) ∨
      ((handleEvent rand g e).state = GameState.quitRequested) ∨
      ((handleEvent rand g e).snake.parts = g.snake.parts ∧
        (g.state = GameState.running ∨ g.state = GameState.paused)) ∨
      ((handleEvent rand g e).snake = resetSnake g.snake) := by
  cases e with
  | other => exact Or.inl ⟨rfl, rfl⟩
  | keyDown k =>
    cases k with
    | escape => exact Or.inr (Or.inl rfl)
    | up => exact Or.inl ⟨rfl, rfl⟩
    | down => exact Or.inl ⟨rfl, rfl⟩
    | left => exact Or.inl ⟨rfl, rfl⟩
    | right => exact Or.inl ⟨rfl, rfl⟩
    | other => exact Or.inl ⟨rfl, rfl⟩
    | space =>
      cases hs : g.state with
      | paused =>
        refine Or.inr (Or.inr (Or.inl ⟨?_, Or.inr rfl⟩))
        simp only [handleEvent, hs]
      | running =>
        refine Or.inr (Or.inr (Or.inl ⟨?_, Or.inl rfl⟩))
        simp only [handleEvent, hs]
      | quitRequested =>
        refine Or.inr (Or.inl ?_)
        simp only [handleEvent, hs]
      | lost =>
        refine Or.inr (Or.inr (Or.inr ?_))
        simp only [handleEvent, hs, relocatePickup]

theorem advanceSnakePosition_tail_nodup (snake : Snake) (hne : snake.parts ≠ [])
    (hnd : snake.parts.Nodup) :
    ∃ s', advanceSnakePosition snake = some s' ∧ s'.parts.tail.Nodup := by
  obtain ⟨head, rest, hp⟩ := List.exists_cons_of_ne_nil hne
  obtain ⟨s1, hadv, hparts, _⟩ := advanceSnakePosition_facts snake head rest hp
  refine ⟨s1, hadv, ?_⟩
  rw [hparts, List.tail_cons]
  rw [hp] at hnd
  split
  · exact hnd
  · exact List.Nodup.sublist (List.dropLast_sublist _) hnd

theorem reachable_nodup (rand : Nat → Nat) (g : Game) (hr : Reachable rand g) :
    (g.state = GameState.running ∨ g.state = GameState.paused) → g.snake.parts.Nodup := by
  refine reachable_induction rand
    (fun g => (g.state = GameState.running ∨ g.state = GameState.paused) →
      g.snake.parts.Nodup) ?_ ?_ ?_ ?_ g hr
  · intro _
    simp only [initGame, resetSnake_eq]
    decide
  · intro g e _ hP hs
    rcases handleEvent_state_parts rand g e with ⟨h1, h2⟩ | h | ⟨h1, h2⟩ | h
    · rw [h2]; rw [h1] at hs; exact hP hs
    · rw [h] at hs
      rcases hs with h' | h' <;> cases h'
    · rw [h1]; exact hP h2
    · rw [h, resetSnake_eq]
      decide
  · intro g t hP
    exact hP
  · intro g g' h4 hP htick hs
    match hp : g.snake.parts, h4 with
    | head :: second :: rest, _ =>
      obtain ⟨s1, bodyTail, b, g'', _, hbody, hparts, _, _, _, hiff, htick', hstate, hgparts, _⟩ :=
        tickBody_facts rand g head second rest hp
      rw [htick] at htick'
      cases htick'
      cases b with
      | true =>
        rw [hstate] at hs
        rcases hs with h' | h' <;> cases h'
      | false =>
        rw [hstate] at hs
        have hold : (head :: second :: rest).Nodup := by
          rw [← hp]; exact hP hs
        have hsub : (head :: bodyTail).Nodup := by
          rw [hbody]
          split
          · exact hold
          · exact List.Nodup.sublist (List.Sublist.cons₂ head (List.dropLast_sublist _)) hold
        have hnot : ¬ (onWall (stepCell g.snake.nextDirection head)
            ∨ ∃ p ∈ head :: bodyTail, p.x = (stepCell g.snake.nextDirection head).x
                ∧ p.y = (stepCell g.snake.nextDirection head).y) := by
          intro h
          have := hiff.2 h
          cases this
        rw [hgparts, hparts]
        refine List.nodup_cons.2 ⟨?_, hsub⟩
        intro hmem
        exact hnot (Or.inr ⟨_, hmem, rfl, rfl⟩)
    | [_], h => simp at h
    | [], h => simp at h

/-- C17: in every state reachable from game start whose game state is Running
or Paused the cells of the body's parts are pairwise distinct;
`advanceSnakePosition` on a body of distinct cells returns a body whose parts
after the head are on distinct cells (the part grown at the old tail cell
included); and a tick after which the head is on the cell of another part ends
in state Lost. -/
theorem C17_segments_on_distinct_cells :
    (∀ (rand : Nat → Nat) (g : Game), Reachable rand g →
      (g.state = GameState.running ∨ g.state = GameState.paused) → g.snake.parts.Nodup) ∧
    (∀ snake : Snake, snake.parts ≠ [] → snake.parts.Nodup →
      ∃ s', advanceSnakePosition snake = some s' ∧ s'.parts.tail.Nodup) ∧
    (∀ (rand : Nat → Nat) (g : Game), 2 ≤ g.snake.parts.length →
      ∃ s1 newHead others g', advanceSnakePosition g.snake = some s1 ∧
        s1.parts = newHead :: others ∧
        tickBody rand g = some g' ∧
        g'.snake.parts = s1.parts ∧
        ((∃ p ∈ others, p.x = newHead.x ∧ p.y = newHead.y) → g'.state = GameState.lost)) := by
  refine ⟨reachable_nodup, advanceSnakePosition_tail_nodup, ?_⟩
  intro rand g h2
  match hp : g.snake.parts, h2 with
  | head :: second :: rest, _ =>
    obtain ⟨s1, bodyTail, b, g', hadv, _, hparts, _, _, _, hiff, htick, hstate, hgparts, _⟩ :=
      tickBody_facts rand g head second rest hp
    refine ⟨s1, _, _, g', hadv, hparts, htick, hgparts, ?_⟩
    intro hcell
    have hb : b = true := hiff.2 (Or.inr hcell)
    rw [hstate, hb]
    rfl
  | [_], h => simp at h
  | [], h => simp at h

/-- C17 at sample inputs: the start state is Paused with four distinct cells;
the fresh snake with one pickup pending advances to five parts with distinct
cells after the head; and under `altRand` the tick of the fifth frame puts the
head on the cell (8,3) of the last part and ends Lost. -/
theorem C17_segments_on_distinct_cells_witness :
    Reachable sampleRand (initGame sampleRand) ∧
    ((initGame sampleRand).state = GameState.running
      ∨ (initGame sampleRand).state = GameState.paused) ∧
    (initGame sampleRand).snake.parts.Nodup ∧
    ({ resetSnake emptySnake with pickupsPending := 1 } : Snake).parts ≠ [] ∧
    ({ resetSnake emptySnake with pickupsPending := 1 } : Snake).parts.Nodup ∧
    (∃ s', advanceSnakePosition { resetSnake emptySnake with pickupsPending := 1 } = some s' ∧
      s'.parts.tail.Nodup) ∧
    2 ≤ nearWallGame.snake.parts.length ∧
    (∃ s1 newHead others g', advanceSnakePosition nearWallGame.snake = some s1 ∧
        s1.parts = newHead :: others ∧
        tickBody sampleRand nearWallGame = some g' ∧
        g'.snake.parts = s1.parts ∧
        ((∃ p ∈ others, p.x = newHead.x ∧ p.y = newHead.y) → g'.state = GameState.lost)) ∧
    (runFrames altRand (initGame altRand) uTurnFrames).map
        (fun g => (g.state, g.snake.parts))
      = some (GameState.lost, [⟨8, 3⟩, ⟨8, 4⟩, ⟨9, 4⟩, ⟨9, 3⟩, ⟨8, 3⟩]) :=
  ⟨Reachable.init, Or.inr (by decide),
    C17_segments_on_distinct_cells.1 sampleRand (initGame sampleRand) Reachable.init
      (Or.inr (by decide)),
    by decide, by decide,
    C17_segments_on_distinct_cells.2.1 { resetSnake emptySnake with pickupsPending := 1 }
      (by decide) (by decide),
    by decide,
    C17_segments_on_distinct_cells.2.2 sampleRand nearWallGame (by decide),
    by decide!⟩

/-! ## Pickup placement against the body, and the neck -/

/-- C18 as stated fails: under `altRand` the first frame from game start (Space
and an expired timer) moves the head onto the pickup at (8,3), and the
relocation that follows places the pickup at (8,3) again, the cell of the
head. -/
theorem C18_pickup_relocated_onto_head :
    (runFrames altRand (initGame altRand) [([Event.keyDown Key.space], 250)]).map
        (fun g => (g.state, g.pickup, g.snake.parts, g.snake.pickupsPending, g.randCalls))
      = some (GameState.running, ⟨8, 3⟩, [⟨8, 3⟩, ⟨7, 3⟩, ⟨6, 3⟩, ⟨5, 3⟩], 1, 4) := by
  decide!

/-- C18, amended: at every creation of the pickup (at game start, on restart
from Lost, after a consumption) the new cell is `(r1 mod 33 + 1, r2 mod 33 + 1)`
for the two `rand()` results drawn, whatever the body is; so a body part is on
the new pickup cell exactly when its cell is `(r1 mod 33 + 1, r2 mod 33 + 1)`. -/
theorem C18_pickup_placement_ignores_body (rand : Nat → Nat) (g : Game) :
    (initGame rand).pickup
      = { x := ((rand 0 % 33 + 1 : Nat) : Int), y := ((rand 1 % 33 + 1 : Nat) : Int) } ∧
    (g.state = GameState.lost →
      (handleEvent rand g (Event.keyDown Key.space)).pickup
        = { x := ((rand g.randCalls % 33 + 1 : Nat) : Int)
            y := ((rand (g.randCalls + 1) % 33 + 1 : Nat) : Int) } ∧
      ∀ p ∈ (handleEvent rand g (Event.keyDown Key.space)).snake.parts,
        (p.x = (handleEvent rand g (Event.keyDown Key.space)).pickup.x
            ∧ p.y = (handleEvent rand g (Event.keyDown Key.space)).pickup.y) ↔
          (p.x = ((rand g.randCalls % 33 + 1 : Nat) : Int)
            ∧ p.y = ((rand (g.randCalls + 1) % 33 + 1 : Nat) : Int))) ∧
    (2 ≤ g.snake.parts.length → tickConsumes g = true →
      ∃ g', tickBody rand g = some g' ∧
        g'.pickup
          = { x := ((rand g.randCalls % 33 + 1 : Nat) : Int)
              y := ((rand (g.randCalls + 1) % 33 + 1 : Nat) : Int) } ∧
        ∀ p ∈ g'.snake.parts,
          (p.x = g'.pickup.x ∧ p.y = g'.pickup.y) ↔
            (p.x = ((rand g.randCalls % 33 + 1 : Nat) : Int)
              ∧ p.y = ((rand (g.randCalls + 1) % 33 + 1 : Nat) : Int))) := by
  refine ⟨?_, ?_, ?_⟩
  · simp only [initGame, updatePickupLocation_eq]
  · intro hs
    have hpick : (handleEvent rand g (Event.keyDown Key.space)).pickup
        = { x := ((rand g.randCalls % 33 + 1 : Nat) : Int)
            y := ((rand (g.randCalls + 1) % 33 + 1 : Nat) : Int) } := by
      simp only [handleEvent, hs, relocatePickup, updatePickupLocation_eq]
    refine ⟨hpick, ?_⟩
    intro p _
    rw [hpick]
  · intro h2 hcons
    match hp : g.snake.parts, h2 with
    | head :: second :: rest, _ =>
      obtain ⟨s1, bodyTail, b, g', hadv, _, _, _, hcol, _, _, htick, _, _, _, _, _, hgpick⟩ :=
        tickBody_facts rand g head second rest hp
      have heats : (stepCell g.snake.nextDirection head).x = g.pickup.x
          ∧ (stepCell g.snake.nextDirection head).y = g.pickup.y := by
        unfold tickConsumes at hcons
        rw [hadv] at hcons
        dsimp only at hcons
        rw [hcol] at hcons
        by_cases hc : (stepCell g.snake.nextDirection head).x = g.pickup.x
            ∧ (stepCell g.snake.nextDirection head).y = g.pickup.y
        · exact hc
        · rw [decide_eq_false hc] at hcons
          cases hcons
      have hpick : g'.pickup
          = { x := ((rand g.randCalls % 33 + 1 : Nat) : Int)
              y := ((rand (g.randCalls + 1) % 33 + 1 : Nat) : Int) } := by
        rw [hgpick, if_pos heats, updatePickupLocation_eq]
      refine ⟨g', htick, hpick, ?_⟩
      intro p _
      rw [hpick]
    | [_], h => simp at h
    | [], h => simp at h

/-- C18 (amended) at sample inputs: restart of a lost game under `sampleRand`
puts the pickup at (3,3), and the consuming tick of the start snake under
`altRand` puts it at (8,3), the cell of the head. -/
theorem C18_pickup_placement_ignores_body_witness :
    lostGame.state = GameState.lost ∧
    ((handleEvent sampleRand lostGame (Event.keyDown Key.space)).pickup
        = { x := ((sampleRand lostGame.randCalls % 33 + 1 : Nat) : Int)
            y := ((sampleRand (lostGame.randCalls + 1) % 33 + 1 : Nat) : Int) } ∧
      ∀ p ∈ (handleEvent sampleRand lostGame (Event.keyDown Key.space)).snake.parts,
        (p.x = (handleEvent sampleRand lostGame (Event.keyDown Key.space)).pickup.x
            ∧ p.y = (handleEvent sampleRand lostGame (Event.keyDown Key.space)).pickup.y) ↔
          (p.x = ((sampleRand lostGame.randCalls % 33 + 1 : Nat) : Int)
            ∧ p.y = ((sampleRand (lostGame.randCalls + 1) % 33 + 1 : Nat) : Int))) ∧
    2 ≤ ({ initGame altRand with state := GameState.running } : Game).snake.parts.length ∧
    tickConsumes { initGame altRand with state := GameState.running } = true ∧
    (tickBody altRand { initGame altRand with state := GameState.running }).map
        (fun g => (g.pickup, g.snake.parts.head?)) = some (⟨8, 3⟩, some ⟨8, 3⟩) ∧
    (∃ g', tickBody altRand { initGame altRand with state := GameState.running } = some g' ∧
        g'.pickup
          = { x := ((altRand
                  ({ initGame altRand with state := GameState.running } : Game).randCalls
                  % 33 + 1 : Nat) : Int)
              y := ((altRand
                  (({ initGame altRand with state := GameState.running } : Game).randCalls + 1)
                  % 33 + 1 : Nat) : Int) } ∧
        ∀ p ∈ g'.snake.parts,
          (p.x = g'.pickup.x ∧ p.y = g'.pickup.y) ↔
            (p.x = ((altRand
                  ({ initGame altRand with state := GameState.running } : Game).randCalls
                  % 33 + 1 : Nat) : Int)
              ∧ p.y = ((altRand
                  (({ initGame altRand with state := GameState.running } : Game).randCalls + 1)
                  % 33 + 1 : Nat) : Int))) :=
  ⟨by decide,
    (C18_pickup_placement_ignores_body sampleRand lostGame).2.1 (by decide),
    by decide, by decide, by decide!,
    (C18_pickup_placement_ignores_body altRand
      { initGame altRand with state := GameState.running }).2.2 (by decide) (by decide)⟩

end CSnake
